import Mathlib

/-!
Extended Kalman filter for lidar/radar fusion.

A verification development of `src/kalman_filter.cpp` (the state estimator) and
`src/FusionEKF.cpp` (the fusion controller).

Numbers are elements of a linear ordered field `α` (exact arithmetic: the rounding of
`float` and `double` is not part of the model, except for the two loops of `UpdateEKF`,
which are also run on binary64 values, `roundDouble`). Eigen's dense matrices and vectors are
Mathlib's `Matrix (Fin m) (Fin n) α` and `Fin n → α`; their dimensions are carried by
the types. The functions and the constant of `<cmath>` (`sqrt`, `atan2`, `cos`, `sin`,
`M_PI`) are the fields of a `Libm` record, so that the estimator runs over `ℚ` with any
rational table and is reasoned about over `ℝ` with the real functions. Console output
is not part of the estimator state and is left out.
-/

open Matrix

namespace EKF

/-- The functions and the constant of `<cmath>` the estimator calls. `M_PI` is a
positive constant. -/
structure Libm (α : Type) [LinearOrderedField α] where
  sqrt : α → α
  atan2 : α → α → α
  cos : α → α
  sin : α → α
  M_PI : α
  M_PI_pos : 0 < M_PI

/-- Eigen's `inverse()` of a square matrix: the inverse of an invertible matrix, here
by the adjugate formula so that it evaluates. It stands for Eigen's result on an
invertible matrix only: on a singular one Eigen returns coefficients that are not numbers,
which `inverseDefined` renders as no result, and the value here is of no meaning. -/
def inverse {α : Type} [Field α] {m : ℕ} (A : Matrix (Fin m) (Fin m) α) :
    Matrix (Fin m) (Fin m) α :=
  (A.det)⁻¹ • A.adjugate

/-- Members of the class `KalmanFilter`: state `x_`, covariance `P_`, transition `F_`,
process noise `Q_`, observation matrix `H_` and measurement noise `R_`, for a state of
dimension `n` and a measurement of dimension `m`. -/
structure KalmanFilter (α : Type) (n m : ℕ) where
  x_ : Fin n → α
  P_ : Matrix (Fin n) (Fin n) α
  F_ : Matrix (Fin n) (Fin n) α
  Q_ : Matrix (Fin n) (Fin n) α
  H_ : Matrix (Fin m) (Fin n) α
  R_ : Matrix (Fin m) (Fin m) α

variable {α : Type} [LinearOrderedField α]

/-- `KalmanFilter::Init`: every member is overwritten by the argument. -/
def KalmanFilter.Init {n m : ℕ} (x_in : Fin n → α)
    (P_in F_in : Matrix (Fin n) (Fin n) α) (H_in : Matrix (Fin m) (Fin n) α)
    (R_in : Matrix (Fin m) (Fin m) α) (Q_in : Matrix (Fin n) (Fin n) α) :
    KalmanFilter α n m :=
  { x_ := x_in, P_ := P_in, F_ := F_in, H_ := H_in, R_ := R_in, Q_ := Q_in }

/-- `KalmanFilter::Predict`. -/
def KalmanFilter.Predict {n m : ℕ} (k : KalmanFilter α n m) : KalmanFilter α n m :=
  { k with
    x_ := k.F_ *ᵥ k.x_
    P_ := k.F_ * k.P_ * k.F_ᵀ + k.Q_ }

/-- `KalmanFilter::Update`. -/
def KalmanFilter.Update {n m : ℕ} (k : KalmanFilter α n m) (z : Fin m → α) :
    KalmanFilter α n m :=
  let z_pred := k.H_ *ᵥ k.x_
  let y := z - z_pred
  let Ht := k.H_ᵀ
  let S := k.H_ * k.P_ * Ht + k.R_
  let Si := inverse S
  let PHt := k.P_ * Ht
  let K := PHt * Si
  let I : Matrix (Fin n) (Fin n) α := 1
  { k with
    x_ := k.x_ + K *ᵥ y
    P_ := (I - K * k.H_) * k.P_ }

/-- The loop `while (y > M_PI) y -= 2 * M_PI;` of `KalmanFilter::UpdateEKF`, in exact
arithmetic: the value with which the loop leaves. Every subtraction is exact here, so the
loop always leaves; `whileAboveFuel` is the same loop with the subtraction of the
arithmetic as a parameter, which on `double`s does not always leave. -/
def whileAbove [FloorRing α] (L : Libm α) (y : α) : α :=
  if L.M_PI < y then whileAbove L (y - 2 * L.M_PI) else y
termination_by ⌈(y - L.M_PI) / (2 * L.M_PI)⌉₊
decreasing_by
  have hpi : 0 < 2 * L.M_PI := mul_pos two_pos L.M_PI_pos
  have hpos : 0 < (y - L.M_PI) / (2 * L.M_PI) := div_pos (sub_pos.mpr ‹_›) hpi
  have hstep : (y - 2 * L.M_PI - L.M_PI) / (2 * L.M_PI)
      = (y - L.M_PI) / (2 * L.M_PI) - 1 := by
    field_simp
    ring
  rw [hstep, Nat.lt_ceil]
  rcases le_or_lt 0 ((y - L.M_PI) / (2 * L.M_PI) - 1) with h0 | h0
  · linarith [Nat.ceil_lt_add_one h0]
  · rw [Nat.ceil_eq_zero.mpr h0.le, Nat.cast_zero]
    exact hpos

/-- The loop `while (y < -M_PI) y += 2 * M_PI;` of `KalmanFilter::UpdateEKF`, in exact
arithmetic: the value with which the loop leaves. `whileBelowFuel` is the same loop with
the addition of the arithmetic as a parameter. -/
def whileBelow [FloorRing α] (L : Libm α) (y : α) : α :=
  if y < -L.M_PI then whileBelow L (y + 2 * L.M_PI) else y
termination_by ⌈(-L.M_PI - y) / (2 * L.M_PI)⌉₊
decreasing_by
  have hpi : 0 < 2 * L.M_PI := mul_pos two_pos L.M_PI_pos
  have hpos : 0 < (-L.M_PI - y) / (2 * L.M_PI) := div_pos (sub_pos.mpr ‹_›) hpi
  have hstep : (-L.M_PI - (y + 2 * L.M_PI)) / (2 * L.M_PI)
      = (-L.M_PI - y) / (2 * L.M_PI) - 1 := by
    field_simp
    ring
  rw [hstep, Nat.lt_ceil]
  rcases le_or_lt 0 ((-L.M_PI - y) / (2 * L.M_PI) - 1) with h0 | h0
  · linarith [Nat.ceil_lt_add_one h0]
  · rw [Nat.ceil_eq_zero.mpr h0.le, Nat.cast_zero]
    exact hpos

/-- The predicted radar measurement `z_pred` of `KalmanFilter::UpdateEKF`, with the
division `div` as a parameter. -/
def zPredWith (L : Libm α) (div : α → α → α) (x : Fin 4 → α) : Fin 3 → α :=
  let px := x 0
  let py := x 1
  let vx := x 2
  let vy := x 3
  let c1 := px * px + py * py
  let c2 := L.sqrt c1
  ![c2, L.atan2 py px, div (px * vx + py * vy) c2]

/-- The innovation `y` of `KalmanFilter::UpdateEKF` as it enters the state update:
`z - z_pred` with its component 1 passed through the two loops. -/
def innovationWith [FloorRing α] (L : Libm α) (div : α → α → α) (x : Fin 4 → α)
    (z : Fin 3 → α) : Fin 3 → α :=
  let y := z - zPredWith L div x
  let y := Function.update y 1 (whileAbove L (y 1))
  Function.update y 1 (whileBelow L (y 1))

/-- `KalmanFilter::UpdateEKF`, with the scalar division `div` and the matrix inversion
`inv` as parameters. -/
def KalmanFilter.UpdateEKFWith [FloorRing α] (L : Libm α) (div : α → α → α)
    (inv : Matrix (Fin 3) (Fin 3) α → Matrix (Fin 3) (Fin 3) α)
    (k : KalmanFilter α 4 3) (z : Fin 3 → α) : KalmanFilter α 4 3 :=
  let px := k.x_ 0
  let py := k.x_ 1
  let c1 := px * px + py * py
  if |c1| < 0.00001 ∨ |px| < 0.00001 then
    k
  else
    let y := innovationWith L div k.x_ z
    let Ht := k.H_ᵀ
    let S := k.H_ * k.P_ * Ht + k.R_
    let Si := inv S
    let PHt := k.P_ * Ht
    let K := PHt * Si
    let I : Matrix (Fin 4) (Fin 4) α := 1
    { k with
      x_ := k.x_ + K *ᵥ y
      P_ := (I - K * k.H_) * k.P_ }

/-- `KalmanFilter::UpdateEKF`. -/
def KalmanFilter.UpdateEKF [FloorRing α] (L : Libm α) (k : KalmanFilter α 4 3)
    (z : Fin 3 → α) : KalmanFilter α 4 3 :=
  k.UpdateEKFWith L (fun a b => a / b) inverse z

/-- Sensor tag of a measurement record (`MeasurementPackage::SensorType`). -/
inductive SensorType where
  | LASER
  | RADAR
  deriving DecidableEq, Repr

/-- A measurement record (`MeasurementPackage`): sensor tag, timestamp in microseconds
and raw values. A lidar record holds `(px, py)` in components 0 and 1 and its component
2 is never read; a radar record holds `(rho, phi, rho_dot)`. -/
structure MeasurementPackage (α : Type) where
  sensor_type_ : SensorType
  timestamp_ : ℤ
  raw_measurements_ : Fin 3 → α

/-- Members of the class `FusionEKF`. The estimator `ekf_` is stored with the dimension
of its measurement, which the controller changes from one record to the next. -/
structure FusionEKF (α : Type) where
  is_initialized_ : Bool
  previous_timestamp_ : ℤ
  R_laser_ : Matrix (Fin 2) (Fin 2) α
  R_radar_ : Matrix (Fin 3) (Fin 3) α
  H_laser_ : Matrix (Fin 2) (Fin 4) α
  Hj_ : Matrix (Fin 3) (Fin 4) α
  ekf_ : (m : ℕ) × KalmanFilter α 4 m

/-- The constructor `FusionEKF::FusionEKF` (the name `FusionEKF` is the type's): the
freshly constructed controller. The constructor leaves `ekf_.x_` and `ekf_.Q_` unset:
their content is the arguments `x0` and `Q0`. `ekf_.H_` and `ekf_.R_` are empty. -/
def FusionEKF.fresh (x0 : Fin 4 → α) (Q0 : Matrix (Fin 4) (Fin 4) α) : FusionEKF α :=
  { is_initialized_ := false
    previous_timestamp_ := 0
    R_laser_ := !![0.0225, 0;
                   0, 0.0225]
    R_radar_ := !![0.09, 0, 0;
                   0, 0.0009, 0;
                   0, 0, 0.09]
    H_laser_ := !![1, 0, 0, 0;
                   0, 1, 0, 0]
    Hj_ := !![1, 0, 0, 0;
              0, 1, 0, 0;
              0, 0, 1, 0]
    ekf_ := ⟨0,
      { x_ := x0
        F_ := !![1, 0, 1, 0;
                 0, 1, 0, 1;
                 0, 0, 1, 0;
                 0, 0, 0, 1]
        P_ := !![1, 0, 0, 0;
                 0, 1, 0, 1;
                 0, 0, 1000, 0;
                 0, 0, 0, 1000]
        Q_ := Q0
        H_ := 0
        R_ := 0 }⟩ }

/-- Assignment to one coefficient, `M(i, j) = v`. -/
def setCoeff {m n : ℕ} (M : Matrix (Fin m) (Fin n) α) (i : Fin m) (j : Fin n) (v : α) :
    Matrix (Fin m) (Fin n) α :=
  Matrix.of fun a b => if a = i ∧ b = j then v else M a b

/-- `FusionEKF::ProcessMeasurement`. `CalculateJacobian` is `Tools::CalculateJacobian`,
whose source is not part of the development. -/
def FusionEKF.ProcessMeasurement [FloorRing α] (L : Libm α)
    (CalculateJacobian : (Fin 4 → α) → Matrix (Fin 3) (Fin 4) α)
    (c : FusionEKF α) (measurement_pack : MeasurementPackage α) : FusionEKF α :=
  let raw := measurement_pack.raw_measurements_
  if c.is_initialized_ = false then
    -- first measurement
    let x : Fin 4 → α := ![1, 1, 1, 1]
    let x : Fin 4 → α :=
      if measurement_pack.sensor_type_ = SensorType.RADAR then
        let px := raw 0 * L.cos (raw 1)
        let py := raw 0 * L.sin (raw 1)
        let vx := raw 2 * L.cos (raw 1)
        let vy := raw 2 * L.sin (raw 1)
        ![px, py, vx, vy]
      else if measurement_pack.sensor_type_ = SensorType.LASER then
        ![raw 0, raw 1, 0, 0]
      else x
    { c with
      ekf_ := ⟨c.ekf_.1, { c.ekf_.2 with x_ := x }⟩
      previous_timestamp_ := measurement_pack.timestamp_
      is_initialized_ := true }
  else
    -- prediction
    let noise_ax : α := 9
    let noise_ay : α := 9
    let dt : α := ((measurement_pack.timestamp_ - c.previous_timestamp_ : ℤ) : α) / 1000000
    let dt_2 := dt * dt
    let dt_3 := dt_2 * dt
    let dt_4 := dt_3 * dt
    let F := setCoeff (setCoeff c.ekf_.2.F_ 0 2 dt) 1 3 dt
    let Q : Matrix (Fin 4) (Fin 4) α :=
      !![dt_4 / 4 * noise_ax, 0, dt_3 / 2 * noise_ax, 0;
         0, dt_4 / 4 * noise_ay, 0, dt_3 / 2 * noise_ay;
         dt_3 / 2 * noise_ax, 0, dt_2 * noise_ax, 0;
         0, dt_3 / 2 * noise_ay, 0, dt_2 * noise_ay]
    let e := ({ c.ekf_.2 with F_ := F, Q_ := Q }).Predict
    -- update
    if measurement_pack.sensor_type_ = SensorType.RADAR then
      let input : Fin 4 → α := ![e.x_ 0, e.x_ 1, e.x_ 2, e.x_ 3]
      let Hj := CalculateJacobian input
      let e : KalmanFilter α 4 3 :=
        { x_ := e.x_, P_ := e.P_, F_ := e.F_, Q_ := e.Q_, H_ := Hj, R_ := c.R_radar_ }
      let z : Fin 3 → α := ![raw 0, raw 1, raw 2]
      { c with
        previous_timestamp_ := measurement_pack.timestamp_
        Hj_ := Hj
        ekf_ := ⟨3, e.UpdateEKF L z⟩ }
    else
      let e : KalmanFilter α 4 2 :=
        { x_ := e.x_, P_ := e.P_, F_ := e.F_, Q_ := e.Q_, H_ := c.H_laser_, R_ := c.R_laser_ }
      let z : Fin 2 → α := ![raw 0, raw 1]
      { c with
        previous_timestamp_ := measurement_pack.timestamp_
        ekf_ := ⟨2, e.Update z⟩ }

/-- The controller after a stream of records, processed in order from `c`. -/
def FusionEKF.run [FloorRing α] (L : Libm α)
    (CalculateJacobian : (Fin 4 → α) → Matrix (Fin 3) (Fin 4) α)
    (c : FusionEKF α) (records : List (MeasurementPackage α)) : FusionEKF α :=
  records.foldl (FusionEKF.ProcessMeasurement L CalculateJacobian) c

/-- The predicted radar measurement `z_pred` of `KalmanFilter::UpdateEKF`. -/
def zPred (L : Libm α) (x : Fin 4 → α) : Fin 3 → α :=
  zPredWith L (fun a b => a / b) x

/-- The innovation `y` that `KalmanFilter::UpdateEKF` multiplies by the gain. -/
def innovation [FloorRing α] (L : Libm α) (x : Fin 4 → α) (z : Fin 3 → α) : Fin 3 → α :=
  innovationWith L (fun a b => a / b) x z

/-- A lidar estimator over `ℚ`: state `(1, 1, 0, 0)`, covariance `diag(1, 1, 1000, 1000)`,
the lidar observation matrix and the lidar measurement noise. -/
def lidarExample : KalmanFilter ℚ 4 2 :=
  { x_ := ![1, 1, 0, 0]
    P_ := !![1, 0, 0, 0;
             0, 1, 0, 0;
             0, 0, 1000, 0;
             0, 0, 0, 1000]
    F_ := 1
    Q_ := 0
    H_ := !![1, 0, 0, 0;
             0, 1, 0, 0]
    R_ := !![0.0225, 0;
             0, 0.0225] }

/-- The inverse of the innovation covariance `diag(1.0225, 1.0225)` of `lidarExample`. -/
def lidarExampleSi : Matrix (Fin 2) (Fin 2) ℚ :=
  !![400 / 409, 0;
     0, 400 / 409]

/-- A radar estimator on the non-degenerate state `(1, 0, 0, 0)`: covariance
`diag(1, 1, 1000, 1000)`, the observation matrix the constructor stores in `Hj_` and the
radar measurement noise. -/
def radarExample (α : Type) [LinearOrderedField α] : KalmanFilter α 4 3 :=
  { x_ := ![1, 0, 0, 0]
    P_ := !![1, 0, 0, 0;
             0, 1, 0, 0;
             0, 0, 1000, 0;
             0, 0, 0, 1000]
    F_ := 1
    Q_ := 0
    H_ := !![1, 0, 0, 0;
             0, 1, 0, 0;
             0, 0, 1, 0]
    R_ := !![0.09, 0, 0;
             0, 0.0009, 0;
             0, 0, 0.09] }

/-- The inverse of the innovation covariance `diag(1.09, 1.0009, 1000.09)` of
`radarExample`. -/
def radarExampleSi (α : Type) [LinearOrderedField α] : Matrix (Fin 3) (Fin 3) α :=
  !![100 / 109, 0, 0;
     0, 10000 / 10009, 0;
     0, 0, 100 / 100009]

/-- The estimator `radarExample` moved to the degenerate state `(0, 0, 1, 1)`. -/
def degenerateExample (α : Type) [LinearOrderedField α] : KalmanFilter α 4 3 :=
  { radarExample α with x_ := ![0, 0, 1, 1] }

/-- A transition matrix whose coefficients other than `(0, 2)` and `(1, 3)` are those
of the identity. -/
def TimeTermsOnly (F : Matrix (Fin 4) (Fin 4) α) : Prop :=
  ∀ i j : Fin 4, ¬ (i = 0 ∧ j = 2) → ¬ (i = 1 ∧ j = 3) → F i j = if i = j then 1 else 0

/-- The lidar record `(px = 1, py = 1, t = 0)`. -/
def lidarRecord1 (α : Type) [LinearOrderedField α] : MeasurementPackage α :=
  { sensor_type_ := SensorType.LASER, timestamp_ := 0, raw_measurements_ := ![1, 1, 0] }

/-- The lidar record `(px = 1.1, py = 1, t = 100000)`. -/
def lidarRecord2 (α : Type) [LinearOrderedField α] : MeasurementPackage α :=
  { sensor_type_ := SensorType.LASER, timestamp_ := 100000, raw_measurements_ := ![1.1, 1, 0] }

/-- The radar record `(rho = 5, phi = 0, rho_dot = 0, t = 0)`. -/
def radarRecord1 (α : Type) [LinearOrderedField α] : MeasurementPackage α :=
  { sensor_type_ := SensorType.RADAR, timestamp_ := 0, raw_measurements_ := ![5, 0, 0] }

/-- The estimator handed to `Update` when a freshly constructed controller processes
the lidar record `(1, 1, t = 0)` and then the lidar record `(1.1, 1, t = 100000)`: the
state and the covariance after `Predict` with `dt = 1/10`. -/
def scenarioPredicted (α : Type) [LinearOrderedField α] : KalmanFilter α 4 2 :=
  { x_ := ![1, 1, 0, 0]
    P_ := !![11.000225, 0, 100.0045, 0;
             0, 11.100225, 0, 101.0045;
             100.0045, 0, 1000.09, 0;
             0, 100.0045, 0, 1000.09]
    F_ := !![1, 0, 1 / 10, 0;
             0, 1, 0, 1 / 10;
             0, 0, 1, 0;
             0, 0, 0, 1]
    Q_ := !![0.000225, 0, 0.0045, 0;
             0, 0.000225, 0, 0.0045;
             0.0045, 0, 0.09, 0;
             0, 0.0045, 0, 0.09]
    H_ := !![1, 0, 0, 0;
             0, 1, 0, 0]
    R_ := !![0.0225, 0;
             0, 0.0225] }

/-- The inverse of the innovation covariance `diag(11.022725, 11.122725)` of
`scenarioPredicted`. -/
def scenarioSi (α : Type) [LinearOrderedField α] : Matrix (Fin 2) (Fin 2) α :=
  !![40000 / 440909, 0;
     0, 40000 / 444909]

/-- Eigen's `inverse()` as the partial operation it is: a singular matrix has no
inverse, and the coefficients Eigen returns for one are not numbers. On an invertible
matrix the result is `inverse`. -/
def inverseDefined {m : ℕ} (A : Matrix (Fin m) (Fin m) α) :
    Option (Matrix (Fin m) (Fin m) α) :=
  if A.det = 0 then none else some (inverse A)

/-- `KalmanFilter::Update` with `S.inverse()` as the partial operation `inverseDefined`:
the members after the call, `none` when `S` is singular and the call leaves no numbers
in `x_` and `P_`. -/
def KalmanFilter.UpdateDefined {n m : ℕ} (k : KalmanFilter α n m) (z : Fin m → α) :
    Option (KalmanFilter α n m) :=
  let z_pred := k.H_ *ᵥ k.x_
  let y := z - z_pred
  let Ht := k.H_ᵀ
  let S := k.H_ * k.P_ * Ht + k.R_
  (inverseDefined S).map fun Si =>
    let PHt := k.P_ * Ht
    let K := PHt * Si
    let I : Matrix (Fin n) (Fin n) α := 1
    { k with
      x_ := k.x_ + K *ᵥ y
      P_ := (I - K * k.H_) * k.P_ }

/-- A lidar estimator with a singular innovation covariance: state `(1, 1, 0, 0)`, zero
covariance and zero measurement noise, so that `S = H·P·Hᵀ + R = 0`. -/
def singularExample : KalmanFilter ℚ 4 2 :=
  { x_ := ![1, 1, 0, 0]
    P_ := 0
    F_ := 1
    Q_ := 0
    H_ := !![1, 0, 0, 0;
             0, 1, 0, 0]
    R_ := 0 }

/-- The loop `while (y > M_PI) y -= 2 * M_PI;` of `KalmanFilter::UpdateEKF`, run for at
most `fuel` passes with the subtraction `sub` of the arithmetic at hand: `none` when
the loop has not left after `fuel` passes. `2 * M_PI` is exact in binary64 as well. -/
def whileAboveFuel (pi : α) (sub : α → α → α) : ℕ → α → Option α
  | 0, _ => none
  | fuel + 1, y => if pi < y then whileAboveFuel pi sub fuel (sub y (2 * pi)) else some y

/-- The loop `while (y < -M_PI) y += 2 * M_PI;` of `KalmanFilter::UpdateEKF`, run for at
most `fuel` passes with the addition `add` of the arithmetic at hand. -/
def whileBelowFuel (pi : α) (add : α → α → α) : ℕ → α → Option α
  | 0, _ => none
  | fuel + 1, y => if y < -pi then whileBelowFuel pi add fuel (add y (2 * pi)) else some y

/-- Rounding of a rational to the nearest integer, a tie going to the even one. -/
def roundHalfEven (m : ℚ) : ℤ :=
  if m - ⌊m⌋ < 1 / 2 then ⌊m⌋
  else if 1 / 2 < m - ⌊m⌋ then ⌊m⌋ + 1
  else if ⌊m⌋ % 2 = 0 then ⌊m⌋ else ⌊m⌋ + 1

/-- Rounding to binary64, the `double` of the source: the nearest rational with a 53-bit
significand, a tie going to the even significand. The exponent is not bounded: the
values the two loops meet are far from overflow and underflow. -/
def roundDouble (q : ℚ) : ℚ :=
  if q = 0 then 0
  else roundHalfEven (q / 2 ^ (Int.log 2 |q| - 52)) * 2 ^ (Int.log 2 |q| - 52)

/-- The binary64 constant `M_PI`, `884279719003555 / 2^48`
(`3.141592653589793115997963…`). -/
def M_PI_double : ℚ := 884279719003555 / 281474976710656

/-- The subtraction of two `double`s: the exact difference, rounded. -/
def subDouble (a b : ℚ) : ℚ := roundDouble (a - b)

/-- The addition of two `double`s: the exact sum, rounded. -/
def addDouble (a b : ℚ) : ℚ := roundDouble (a + b)

/-! ## Theorems -/


/-- Eigen's `inverse()` returns the inverse: if `S * Si = 1` then `inverse S = Si`. -/
theorem inverse_eq_of_mul_eq_one {m : ℕ} (S Si : Matrix (Fin m) (Fin m) α)
    (h : S * Si = 1) : inverse S = Si := by
  have h1 : inverse S = S⁻¹ := by
    rw [inverse, Matrix.inv_def, Ring.inverse_eq_inv]
  rw [h1]
  exact Matrix.inv_eq_right_inv h

/-- C1: `KalmanFilter::Predict` replaces `x` by `F·x` and `P` by `F·P·Fᵀ + Q`, both
computed from the members as they were before the call (coefficientwise:
`x'ᵢ = Σⱼ Fᵢⱼ xⱼ` and `P'ᵢⱼ = Σ_b (Σ_a Fᵢₐ Pₐ_b) Fⱼ_b + Qᵢⱼ`), and leaves `F`, `Q`, `H`
and `R` unchanged. -/
theorem Predict_spec {n m : ℕ} (k : KalmanFilter α n m) :
    k.Predict.x_ = k.F_ *ᵥ k.x_ ∧
    k.Predict.P_ = k.F_ * k.P_ * k.F_ᵀ + k.Q_ ∧
    (∀ i, k.Predict.x_ i = ∑ j, k.F_ i j * k.x_ j) ∧
    (∀ i j, k.Predict.P_ i j = (∑ b, (∑ a, k.F_ i a * k.P_ a b) * k.F_ j b) + k.Q_ i j) ∧
    k.Predict.F_ = k.F_ ∧ k.Predict.Q_ = k.Q_ ∧ k.Predict.H_ = k.H_ ∧
    k.Predict.R_ = k.R_ := by
  refine ⟨rfl, rfl, fun i => rfl, fun i j => ?_, rfl, rfl, rfl, rfl⟩
  simp [KalmanFilter.Predict, Matrix.mul_apply, Matrix.add_apply]

/-- C2: when `S = H·P·Hᵀ + R` is invertible, with inverse `Si`, `KalmanFilter::Update(z)`
yields `x' = x + K·(z − H·x)` and `P' = (I − K·H)·P` with `K = P·Hᵀ·Si`, where `S` and
`K` are built from the covariance `P` before the call; `F`, `Q`, `H` and `R` are
unchanged. -/
theorem Update_spec {n m : ℕ} (k : KalmanFilter α n m) (z : Fin m → α)
    (Si : Matrix (Fin m) (Fin m) α) (hSi : (k.H_ * k.P_ * k.H_ᵀ + k.R_) * Si = 1) :
    (k.Update z).x_ = k.x_ + (k.P_ * k.H_ᵀ * Si) *ᵥ (z - k.H_ *ᵥ k.x_) ∧
    (k.Update z).P_ = (1 - (k.P_ * k.H_ᵀ * Si) * k.H_) * k.P_ ∧
    (k.Update z).F_ = k.F_ ∧ (k.Update z).Q_ = k.Q_ ∧ (k.Update z).H_ = k.H_ ∧
    (k.Update z).R_ = k.R_ := by
  refine ⟨?_, ?_, rfl, rfl, rfl, rfl⟩ <;>
    simp only [KalmanFilter.Update, inverse_eq_of_mul_eq_one _ _ hSi]

/-- C2 at the lidar estimator `lidarExample` and the measurement `(1.1, 1)`, where
`S = diag(1.0225, 1.0225)` has the inverse `diag(400/409, 400/409)`. -/
theorem Update_spec_witness :
    (lidarExample.H_ * lidarExample.P_ * lidarExample.H_ᵀ + lidarExample.R_)
        * lidarExampleSi = 1 ∧
    (lidarExample.Update ![1.1, 1]).x_ = lidarExample.x_ +
      (lidarExample.P_ * lidarExample.H_ᵀ * lidarExampleSi) *ᵥ
        (![1.1, 1] - lidarExample.H_ *ᵥ lidarExample.x_) := by
  have h : (lidarExample.H_ * lidarExample.P_ * lidarExample.H_ᵀ + lidarExample.R_)
      * lidarExampleSi = 1 := by
    ext i j
    fin_cases i <;> fin_cases j <;>
      norm_num [lidarExample, lidarExampleSi, Matrix.mul_apply, Fin.sum_univ_succ,
        Matrix.vecHead, Matrix.vecTail]
  exact ⟨h, (Update_spec lidarExample ![1.1, 1] lidarExampleSi h).1⟩

/-- The guard of `UpdateEKF` is the test `px² + py² < 0.00001 ∨ |px| < 0.00001`. -/
theorem guard_iff (x : Fin 4 → α) :
    (|x 0 * x 0 + x 1 * x 1| < 0.00001 ∨ |x 0| < 0.00001) ↔
      (x 0 ^ 2 + x 1 ^ 2 < 0.00001 ∨ |x 0| < 0.00001) := by
  have h : |x 0 * x 0 + x 1 * x 1| = x 0 ^ 2 + x 1 ^ 2 := by
    rw [abs_of_nonneg (add_nonneg (mul_self_nonneg _) (mul_self_nonneg _))]
    ring
  rw [h]

section Loops

variable [FloorRing α] (L : Libm α)

/-- The first loop stops at or below `M_PI`. -/
theorem whileAbove_le (y : α) : whileAbove L y ≤ L.M_PI := by
  induction y using whileAbove.induct L with
  | case1 y h ih => rw [whileAbove, if_pos h]; exact ih
  | case2 y h => rw [whileAbove, if_neg h]; exact not_lt.mp h

/-- The first loop does not run from a value at or below `M_PI`. -/
theorem whileAbove_of_le {y : α} (h : y ≤ L.M_PI) : whileAbove L y = y := by
  rw [whileAbove, if_neg (not_lt.mpr h)]

/-- Once the first loop has run, its result is above `-M_PI`. -/
theorem neg_lt_whileAbove {y : α} (h : L.M_PI < y) : -L.M_PI < whileAbove L y := by
  induction y using whileAbove.induct L with
  | case1 y _ ih =>
    rw [whileAbove, if_pos h]
    rcases lt_or_le L.M_PI (y - 2 * L.M_PI) with h1 | h1
    · exact ih h1
    · rw [whileAbove_of_le L h1]
      linarith
  | case2 y h2 => exact absurd h h2

/-- The second loop stops at or above `-M_PI`. -/
theorem neg_le_whileBelow (y : α) : -L.M_PI ≤ whileBelow L y := by
  induction y using whileBelow.induct L with
  | case1 y h ih => rw [whileBelow, if_pos h]; exact ih
  | case2 y h => rw [whileBelow, if_neg h]; exact not_lt.mp h

/-- The second loop does not run from a value at or above `-M_PI`. -/
theorem whileBelow_of_ge {y : α} (h : -L.M_PI ≤ y) : whileBelow L y = y := by
  rw [whileBelow, if_neg (not_lt.mpr h)]

/-- Once the second loop has run, its result is below `M_PI`. -/
theorem whileBelow_lt {y : α} (h : y < -L.M_PI) : whileBelow L y < L.M_PI := by
  induction y using whileBelow.induct L with
  | case1 y _ ih =>
    rw [whileBelow, if_pos h]
    rcases lt_or_le (y + 2 * L.M_PI) (-L.M_PI) with h1 | h1
    · exact ih h1
    · rw [whileBelow_of_ge L h1]
      linarith
  | case2 y h2 => exact absurd h h2

/-- The second loop returns `-M_PI` exactly from the values `-M_PI - n·2·M_PI`. -/
theorem whileBelow_eq_neg_iff (y : α) :
    whileBelow L y = -L.M_PI ↔ ∃ n : ℕ, y = -L.M_PI - n * (2 * L.M_PI) := by
  have hpi := L.M_PI_pos
  induction y using whileBelow.induct L with
  | case1 y h ih =>
    rw [whileBelow, if_pos h]
    refine ih.trans ?_
    constructor
    · rintro ⟨n, hn⟩
      refine ⟨n + 1, ?_⟩
      push_cast
      linarith
    · rintro ⟨n, hn⟩
      cases n with
      | zero => simp at hn; exact absurd hn (ne_of_lt h)
      | succ n =>
        refine ⟨n, ?_⟩
        push_cast at hn
        linarith
  | case2 y h =>
    rw [whileBelow, if_neg h]
    constructor
    · intro hy
      exact ⟨0, by simp [hy]⟩
    · rintro ⟨n, hn⟩
      have h1 : -L.M_PI ≤ y := not_lt.mp h
      have h2 : (0 : α) ≤ n * (2 * L.M_PI) := by positivity
      have h3 : (n : α) * (2 * L.M_PI) = 0 := by linarith
      rw [hn, h3, sub_zero]

/-- Both loops in sequence leave a value of the closed interval `[-M_PI, M_PI]`. -/
theorem normalized_mem (y : α) :
    -L.M_PI ≤ whileBelow L (whileAbove L y) ∧ whileBelow L (whileAbove L y) ≤ L.M_PI := by
  refine ⟨neg_le_whileBelow L _, ?_⟩
  rcases lt_or_le (whileAbove L y) (-L.M_PI) with h | h
  · exact (whileBelow_lt L h).le
  · rw [whileBelow_of_ge L h]
    exact whileAbove_le L y

/-- Both loops in sequence return `-M_PI` exactly from the values `-M_PI - n·2·M_PI`. -/
theorem normalized_eq_neg_iff (y : α) :
    whileBelow L (whileAbove L y) = -L.M_PI ↔ ∃ n : ℕ, y = -L.M_PI - n * (2 * L.M_PI) := by
  have hpi := L.M_PI_pos
  rcases le_or_lt y L.M_PI with h | h
  · rw [whileAbove_of_le L h]
    exact whileBelow_eq_neg_iff L y
  · have h1 := neg_lt_whileAbove L h
    rw [whileBelow_of_ge L h1.le]
    constructor
    · intro h2
      exact absurd h2 (ne_of_gt h1)
    · rintro ⟨n, hn⟩
      have h2 : (0 : α) ≤ n * (2 * L.M_PI) := by positivity
      linarith

/-- Both loops in sequence map `3·M_PI` to `M_PI`. -/
theorem normalized_three_pi :
    whileBelow L (whileAbove L (3 * L.M_PI)) = L.M_PI := by
  have hpi := L.M_PI_pos
  have h1 : L.M_PI < 3 * L.M_PI := by linarith
  have h2 : 3 * L.M_PI - 2 * L.M_PI = L.M_PI := by ring
  rw [whileAbove, if_pos h1, h2, whileAbove_of_le L le_rfl, whileBelow_of_ge L (by linarith)]

/-- The innovation of `UpdateEKF`, component by component. -/
theorem innovationWith_eq (div : α → α → α) (x : Fin 4 → α) (z : Fin 3 → α) :
    innovationWith L div x z =
      ![z 0 - L.sqrt (x 0 * x 0 + x 1 * x 1),
        whileBelow L (whileAbove L (z 1 - L.atan2 (x 1) (x 0))),
        z 2 - div (x 0 * x 2 + x 1 * x 3) (L.sqrt (x 0 * x 0 + x 1 * x 1))] := by
  ext i
  fin_cases i <;> simp [innovationWith, zPredWith, Matrix.vecHead, Matrix.vecTail]

end Loops

section UpdateEKF

variable [FloorRing α] (L : Libm α)

/-- C3: on a degenerate state (`px² + py² < 0.00001` or `|px| < 0.00001`),
`KalmanFilter::UpdateEKF(z)` returns the estimator as it was, state vector and
covariance included, and evaluates no division: the result is the same whatever the
scalar division `div` and the matrix inversion `inv` compute. -/
theorem UpdateEKF_degenerate (k : KalmanFilter α 4 3) (z : Fin 3 → α)
    (h : k.x_ 0 ^ 2 + k.x_ 1 ^ 2 < 0.00001 ∨ |k.x_ 0| < 0.00001) :
    k.UpdateEKF L z = k ∧ (k.UpdateEKF L z).x_ = k.x_ ∧ (k.UpdateEKF L z).P_ = k.P_ ∧
    ∀ (div : α → α → α) (inv : Matrix (Fin 3) (Fin 3) α → Matrix (Fin 3) (Fin 3) α),
      k.UpdateEKFWith L div inv z = k := by
  have key : ∀ (div : α → α → α)
      (inv : Matrix (Fin 3) (Fin 3) α → Matrix (Fin 3) (Fin 3) α),
      k.UpdateEKFWith L div inv z = k := by
    intro div inv
    simp only [KalmanFilter.UpdateEKFWith]
    rw [if_pos ((guard_iff k.x_).mpr h)]
  have h1 : k.UpdateEKF L z = k := key _ _
  exact ⟨h1, by rw [h1], by rw [h1], key⟩

/-- C4: on a non-degenerate state, with `Si` the inverse of `S = H·P·Hᵀ + R` for the
stored `H`, `KalmanFilter::UpdateEKF(z)` yields `x + K·y` and `(I − K·H)·P`, where
`K = P·Hᵀ·Si` and `y = z − h(x)` with component 1 passed through the two loops, for
`h(x) = (√(px² + py²), atan2(py, px), (px·vx + py·vy)/√(px² + py²))`. -/
theorem UpdateEKF_nondegenerate (k : KalmanFilter α 4 3) (z : Fin 3 → α)
    (h1 : 0.00001 ≤ k.x_ 0 ^ 2 + k.x_ 1 ^ 2) (h2 : 0.00001 ≤ |k.x_ 0|)
    (Si : Matrix (Fin 3) (Fin 3) α) (hSi : (k.H_ * k.P_ * k.H_ᵀ + k.R_) * Si = 1) :
    (k.UpdateEKF L z).x_ = k.x_ + (k.P_ * k.H_ᵀ * Si) *ᵥ
      ![z 0 - L.sqrt (k.x_ 0 ^ 2 + k.x_ 1 ^ 2),
        whileBelow L (whileAbove L (z 1 - L.atan2 (k.x_ 1) (k.x_ 0))),
        z 2 - (k.x_ 0 * k.x_ 2 + k.x_ 1 * k.x_ 3) / L.sqrt (k.x_ 0 ^ 2 + k.x_ 1 ^ 2)] ∧
    (k.UpdateEKF L z).P_ = (1 - (k.P_ * k.H_ᵀ * Si) * k.H_) * k.P_ ∧
    zPred L k.x_ = ![L.sqrt (k.x_ 0 ^ 2 + k.x_ 1 ^ 2), L.atan2 (k.x_ 1) (k.x_ 0),
      (k.x_ 0 * k.x_ 2 + k.x_ 1 * k.x_ 3) / L.sqrt (k.x_ 0 ^ 2 + k.x_ 1 ^ 2)] := by
  have hg : ¬ (|k.x_ 0 * k.x_ 0 + k.x_ 1 * k.x_ 1| < 0.00001 ∨ |k.x_ 0| < 0.00001) := by
    rw [guard_iff]
    exact not_or.mpr ⟨not_lt.mpr h1, not_lt.mpr h2⟩
  have hsq : k.x_ 0 * k.x_ 0 + k.x_ 1 * k.x_ 1 = k.x_ 0 ^ 2 + k.x_ 1 ^ 2 := by ring
  refine ⟨?_, ?_, ?_⟩
  · simp only [KalmanFilter.UpdateEKF, KalmanFilter.UpdateEKFWith]
    rw [if_neg hg]
    simp only [inverse_eq_of_mul_eq_one _ _ hSi, innovationWith_eq, hsq]
  · simp only [KalmanFilter.UpdateEKF, KalmanFilter.UpdateEKFWith]
    rw [if_neg hg]
    simp only [inverse_eq_of_mul_eq_one _ _ hSi]
  · simp only [zPred, zPredWith, hsq]

end UpdateEKF

/-- C3 at the origin `px = 0`, `py = 0`, over the reals. -/
theorem UpdateEKF_degenerate_witness :
    ((degenerateExample ℝ).x_ 0 ^ 2 + (degenerateExample ℝ).x_ 1 ^ 2 < 0.00001 ∨
      |(degenerateExample ℝ).x_ 0| < 0.00001) ∧
    (degenerateExample ℝ).UpdateEKF
        ⟨Real.sqrt, fun y x => Complex.arg ⟨x, y⟩, Real.cos, Real.sin, Real.pi, Real.pi_pos⟩
        ![1, 2, 3] = degenerateExample ℝ := by
  have h : (degenerateExample ℝ).x_ 0 ^ 2 + (degenerateExample ℝ).x_ 1 ^ 2 < 0.00001 ∨
      |(degenerateExample ℝ).x_ 0| < 0.00001 := by
    left
    norm_num [degenerateExample]
  exact ⟨h, (UpdateEKF_degenerate _ (degenerateExample ℝ) ![1, 2, 3] h).1⟩

/-- The innovation covariance of `radarExample` has the inverse `radarExampleSi`. -/
theorem radarExample_mul_Si (α : Type) [LinearOrderedField α] :
    ((radarExample α).H_ * (radarExample α).P_ * (radarExample α).H_ᵀ + (radarExample α).R_)
      * radarExampleSi α = 1 := by
  ext i j
  fin_cases i <;> fin_cases j <;>
    norm_num [radarExample, radarExampleSi, Matrix.mul_apply, Fin.sum_univ_succ,
      Matrix.vecHead, Matrix.vecTail, Matrix.one_fin_three]

/-- C4 at the state `(1, 0, 0, 0)` and the measurement `(2, 1, 0)`, over the reals. -/
theorem UpdateEKF_nondegenerate_witness :
    ((0.00001 : ℝ) ≤ (radarExample ℝ).x_ 0 ^ 2 + (radarExample ℝ).x_ 1 ^ 2 ∧
      (0.00001 : ℝ) ≤ |(radarExample ℝ).x_ 0|) ∧
    ((radarExample ℝ).UpdateEKF
        ⟨Real.sqrt, fun y x => Complex.arg ⟨x, y⟩, Real.cos, Real.sin, Real.pi, Real.pi_pos⟩
        ![2, 1, 0]).P_ =
      (1 - ((radarExample ℝ).P_ * (radarExample ℝ).H_ᵀ * radarExampleSi ℝ)
        * (radarExample ℝ).H_) * (radarExample ℝ).P_ := by
  have h1 : (0.00001 : ℝ) ≤ (radarExample ℝ).x_ 0 ^ 2 + (radarExample ℝ).x_ 1 ^ 2 := by
    norm_num [radarExample]
  have h2 : (0.00001 : ℝ) ≤ |(radarExample ℝ).x_ 0| := by
    norm_num [radarExample]
  exact ⟨⟨h1, h2⟩, (UpdateEKF_nondegenerate _ (radarExample ℝ) ![2, 1, 0] h1 h2
    (radarExampleSi ℝ) (radarExample_mul_Si ℝ)).2.1⟩

/-- C5 fails as stated: on the non-degenerate state `(1, 0, 0, 0)` the measurement
`(1, −π, 0)` has the raw innovation bearing `−π − atan2(0, 1) = −π`, neither loop runs,
and the bearing that enters the state update is `−π`, which is not above `−π`. -/
theorem innovation_bearing_eq_neg_pi :
    ((0.00001 : ℝ) ≤ (radarExample ℝ).x_ 0 ^ 2 + (radarExample ℝ).x_ 1 ^ 2 ∧
      (0.00001 : ℝ) ≤ |(radarExample ℝ).x_ 0|) ∧
    innovation
        ⟨Real.sqrt, fun y x => Complex.arg ⟨x, y⟩, Real.cos, Real.sin, Real.pi, Real.pi_pos⟩
        (radarExample ℝ).x_ ![1, -Real.pi, 0] 1 = -Real.pi ∧
    ¬ (-Real.pi < innovation
        ⟨Real.sqrt, fun y x => Complex.arg ⟨x, y⟩, Real.cos, Real.sin, Real.pi, Real.pi_pos⟩
        (radarExample ℝ).x_ ![1, -Real.pi, 0] 1) := by
  have harg : Complex.arg ⟨1, 0⟩ = 0 := Complex.arg_one
  have hy : innovation
      ⟨Real.sqrt, fun y x => Complex.arg ⟨x, y⟩, Real.cos, Real.sin, Real.pi, Real.pi_pos⟩
      (radarExample ℝ).x_ ![1, -Real.pi, 0] 1 = -Real.pi := by
    rw [innovation, innovationWith_eq]
    simp only [radarExample, Matrix.cons_val_one, Matrix.head_cons, Matrix.cons_val_zero,
      harg, sub_zero]
    exact (normalized_eq_neg_iff _ _).mpr ⟨0, by simp⟩
  refine ⟨⟨?_, ?_⟩, hy, ?_⟩
  · norm_num [radarExample]
  · norm_num [radarExample]
  · rw [hy]
    exact lt_irrefl _

/-- C5, amended: on a non-degenerate state the innovation `y` that `UpdateEKF`
multiplies by the gain has a bearing component in the closed interval `[−π, π]`; it is
`−π` exactly when the raw innovation bearing `z₁ − atan2(py, px)` is `−π − n·2π` for a
natural number `n`; a raw innovation bearing of `3π` is mapped to `π`. -/
theorem innovation_bearing_mem [FloorRing α] (L : Libm α) (k : KalmanFilter α 4 3)
    (z : Fin 3 → α) (h1 : 0.00001 ≤ k.x_ 0 ^ 2 + k.x_ 1 ^ 2) (h2 : 0.00001 ≤ |k.x_ 0|) :
    (k.UpdateEKF L z).x_ = k.x_ +
      (k.P_ * k.H_ᵀ * inverse (k.H_ * k.P_ * k.H_ᵀ + k.R_)) *ᵥ innovation L k.x_ z ∧
    innovation L k.x_ z 1 = whileBelow L (whileAbove L (z 1 - L.atan2 (k.x_ 1) (k.x_ 0))) ∧
    -L.M_PI ≤ innovation L k.x_ z 1 ∧ innovation L k.x_ z 1 ≤ L.M_PI ∧
    (innovation L k.x_ z 1 = -L.M_PI ↔
      ∃ n : ℕ, z 1 - L.atan2 (k.x_ 1) (k.x_ 0) = -L.M_PI - n * (2 * L.M_PI)) ∧
    (z 1 - L.atan2 (k.x_ 1) (k.x_ 0) = 3 * L.M_PI → innovation L k.x_ z 1 = L.M_PI) := by
  have hg : ¬ (|k.x_ 0 * k.x_ 0 + k.x_ 1 * k.x_ 1| < 0.00001 ∨ |k.x_ 0| < 0.00001) := by
    rw [guard_iff]
    exact not_or.mpr ⟨not_lt.mpr h1, not_lt.mpr h2⟩
  have hy : innovation L k.x_ z 1
      = whileBelow L (whileAbove L (z 1 - L.atan2 (k.x_ 1) (k.x_ 0))) := by
    rw [innovation, innovationWith_eq]
    simp
  refine ⟨?_, hy, ?_, ?_, ?_, ?_⟩
  · simp only [KalmanFilter.UpdateEKF, KalmanFilter.UpdateEKFWith, innovation]
    rw [if_neg hg]
  · rw [hy]; exact (normalized_mem L _).1
  · rw [hy]; exact (normalized_mem L _).2
  · rw [hy]; exact normalized_eq_neg_iff L _
  · intro h3
    rw [hy, h3]
    exact normalized_three_pi L

/-- C5, amended, at the state `(1, 0, 0, 0)` and the measurement `(1, 3π, 0)`, over the
reals. -/
theorem innovation_bearing_mem_witness :
    ((0.00001 : ℝ) ≤ (radarExample ℝ).x_ 0 ^ 2 + (radarExample ℝ).x_ 1 ^ 2 ∧
      (0.00001 : ℝ) ≤ |(radarExample ℝ).x_ 0|) ∧
    -Real.pi ≤ innovation
        ⟨Real.sqrt, fun y x => Complex.arg ⟨x, y⟩, Real.cos, Real.sin, Real.pi, Real.pi_pos⟩
        (radarExample ℝ).x_ ![1, 3 * Real.pi, 0] 1 ∧
    innovation
        ⟨Real.sqrt, fun y x => Complex.arg ⟨x, y⟩, Real.cos, Real.sin, Real.pi, Real.pi_pos⟩
        (radarExample ℝ).x_ ![1, 3 * Real.pi, 0] 1 ≤ Real.pi := by
  have h1 : (0.00001 : ℝ) ≤ (radarExample ℝ).x_ 0 ^ 2 + (radarExample ℝ).x_ 1 ^ 2 := by
    norm_num [radarExample]
  have h2 : (0.00001 : ℝ) ≤ |(radarExample ℝ).x_ 0| := by
    norm_num [radarExample]
  have h := innovation_bearing_mem
    ⟨Real.sqrt, fun y x => Complex.arg ⟨x, y⟩, Real.cos, Real.sin, Real.pi, Real.pi_pos⟩
    (radarExample ℝ) ![1, 3 * Real.pi, 0] h1 h2
  exact ⟨⟨h1, h2⟩, h.2.2.1, h.2.2.2.1⟩

/-- A freshly constructed controller is uninitialized. -/
theorem fresh_uninitialized (x0 : Fin 4 → α) (Q0 : Matrix (Fin 4) (Fin 4) α) :
    (FusionEKF.fresh x0 Q0).is_initialized_ = false := rfl

section Controller

variable [FloorRing α] (L : Libm α) (J : (Fin 4 → α) → Matrix (Fin 3) (Fin 4) α)

/-- `UpdateEKF` writes neither `F`, `Q`, `H` nor `R`. -/
theorem UpdateEKF_frame (k : KalmanFilter α 4 3) (z : Fin 3 → α) :
    (k.UpdateEKF L z).F_ = k.F_ ∧ (k.UpdateEKF L z).Q_ = k.Q_ ∧
    (k.UpdateEKF L z).H_ = k.H_ ∧ (k.UpdateEKF L z).R_ = k.R_ := by
  simp only [KalmanFilter.UpdateEKF, KalmanFilter.UpdateEKFWith]
  split <;> exact ⟨rfl, rfl, rfl, rfl⟩

/-- The first call of `ProcessMeasurement`, unfolded. -/
theorem ProcessMeasurement_uninitialized (c : FusionEKF α) (h : c.is_initialized_ = false)
    (r : MeasurementPackage α) :
    c.ProcessMeasurement L J r =
      { c with
        ekf_ := ⟨c.ekf_.1, { c.ekf_.2 with x_ :=
          (if r.sensor_type_ = SensorType.RADAR then
            ![r.raw_measurements_ 0 * L.cos (r.raw_measurements_ 1),
              r.raw_measurements_ 0 * L.sin (r.raw_measurements_ 1),
              r.raw_measurements_ 2 * L.cos (r.raw_measurements_ 1),
              r.raw_measurements_ 2 * L.sin (r.raw_measurements_ 1)]
          else if r.sensor_type_ = SensorType.LASER then
            ![r.raw_measurements_ 0, r.raw_measurements_ 1, 0, 0]
          else ![1, 1, 1, 1]) }⟩
        previous_timestamp_ := r.timestamp_
        is_initialized_ := true } := by
  unfold FusionEKF.ProcessMeasurement
  dsimp only
  rw [if_pos h]

/-- A later call of `ProcessMeasurement`: flag, reference timestamp, `F` and `Q`. -/
theorem ProcessMeasurement_initialized (c : FusionEKF α) (h : c.is_initialized_ = true)
    (r : MeasurementPackage α) (dt : α)
    (hdt : dt = ((r.timestamp_ - c.previous_timestamp_ : ℤ) : α) / 1000000) :
    (c.ProcessMeasurement L J r).previous_timestamp_ = r.timestamp_ ∧
    (c.ProcessMeasurement L J r).is_initialized_ = true ∧
    (c.ProcessMeasurement L J r).ekf_.2.F_ = setCoeff (setCoeff c.ekf_.2.F_ 0 2 dt) 1 3 dt ∧
    (c.ProcessMeasurement L J r).ekf_.2.Q_ =
      !![dt * dt * dt * dt / 4 * 9, 0, dt * dt * dt / 2 * 9, 0;
         0, dt * dt * dt * dt / 4 * 9, 0, dt * dt * dt / 2 * 9;
         dt * dt * dt / 2 * 9, 0, dt * dt * 9, 0;
         0, dt * dt * dt / 2 * 9, 0, dt * dt * 9] := by
  subst hdt
  have h' : ¬ c.is_initialized_ = false := by simp [h]
  unfold FusionEKF.ProcessMeasurement
  dsimp only
  rw [if_neg h']
  by_cases hs : r.sensor_type_ = SensorType.RADAR
  · rw [if_pos hs]
    refine ⟨rfl, h, ?_, ?_⟩
    · exact (UpdateEKF_frame L _ _).1
    · exact (UpdateEKF_frame L _ _).2.1
  · rw [if_neg hs]
    exact ⟨rfl, h, rfl, rfl⟩

/-- C6: the first `ProcessMeasurement` call (controller uninitialized, as a freshly
constructed one is) sets the state from the record alone: a radar record
`(ρ, φ, ρ̇)` gives `(ρ·cos φ, ρ·sin φ, ρ̇·cos φ, ρ̇·sin φ)`, which for `(5, 0, 0)` is
`(5, 0, 0, 0)` as soon as `cos 0 = 1` and `sin 0 = 0`; a lidar record `(px, py)` gives
`(px, py, 0, 0)`. -/
theorem ProcessMeasurement_first_state (c : FusionEKF α) (h : c.is_initialized_ = false)
    (t : ℤ) (raw : Fin 3 → α) :
    (c.ProcessMeasurement L J ⟨SensorType.RADAR, t, raw⟩).ekf_.2.x_ =
      ![raw 0 * L.cos (raw 1), raw 0 * L.sin (raw 1),
        raw 2 * L.cos (raw 1), raw 2 * L.sin (raw 1)] ∧
    (c.ProcessMeasurement L J ⟨SensorType.LASER, t, raw⟩).ekf_.2.x_ =
      ![raw 0, raw 1, 0, 0] ∧
    (L.cos 0 = 1 → L.sin 0 = 0 →
      (c.ProcessMeasurement L J ⟨SensorType.RADAR, t, ![5, 0, 0]⟩).ekf_.2.x_ =
        ![5, 0, 0, 0]) := by
  refine ⟨?_, ?_, ?_⟩
  · rw [ProcessMeasurement_uninitialized L J c h]
    simp
  · rw [ProcessMeasurement_uninitialized L J c h]
    simp
  · intro hc hs
    rw [ProcessMeasurement_uninitialized L J c h]
    simp [hc, hs]

/-- C6 on a freshly constructed controller over the reals, with the radar record
`(5, 0, 0)`. -/
theorem ProcessMeasurement_first_state_witness :
    (FusionEKF.fresh (0 : Fin 4 → ℝ) 0).is_initialized_ = false ∧
    ((FusionEKF.fresh (0 : Fin 4 → ℝ) 0).ProcessMeasurement
        ⟨Real.sqrt, fun y x => Complex.arg ⟨x, y⟩, Real.cos, Real.sin, Real.pi, Real.pi_pos⟩
        (fun _ => 0) ⟨SensorType.RADAR, 0, ![5, 0, 0]⟩).ekf_.2.x_ = ![5, 0, 0, 0] :=
  ⟨rfl, (ProcessMeasurement_first_state
    ⟨Real.sqrt, fun y x => Complex.arg ⟨x, y⟩, Real.cos, Real.sin, Real.pi, Real.pi_pos⟩
    (fun _ => 0) (FusionEKF.fresh 0 0) rfl 0 ![5, 0, 0]).2.2 Real.cos_zero Real.sin_zero⟩

/-- C7 fails on the code: after the first `ProcessMeasurement` call on a freshly
constructed controller the covariance is the matrix the constructor wrote, whose
coefficient `(1, 3)` is `1`, so it is not `diag(1, 1, 1000, 1000)`. -/
theorem first_covariance_not_diagonal (x0 : Fin 4 → α) (Q0 : Matrix (Fin 4) (Fin 4) α)
    (r : MeasurementPackage α) :
    ((FusionEKF.fresh x0 Q0).ProcessMeasurement L J r).ekf_.2.P_ =
      !![1, 0, 0, 0;
         0, 1, 0, 1;
         0, 0, 1000, 0;
         0, 0, 0, 1000] ∧
    ((FusionEKF.fresh x0 Q0).ProcessMeasurement L J r).ekf_.2.P_ 1 3 = 1 ∧
    ((FusionEKF.fresh x0 Q0).ProcessMeasurement L J r).ekf_.2.P_ ≠
      Matrix.diagonal ![1, 1, 1000, 1000] := by
  have hP : ((FusionEKF.fresh x0 Q0).ProcessMeasurement L J r).ekf_.2.P_ =
      !![1, 0, 0, 0;
         0, 1, 0, 1;
         0, 0, 1000, 0;
         0, 0, 0, 1000] := by
    rw [ProcessMeasurement_uninitialized L J _ (fresh_uninitialized x0 Q0)]
    rfl
  refine ⟨hP, ?_, ?_⟩
  · rw [hP]
    rfl
  · rw [hP]
    intro hd
    have h13 := congrFun (congrFun hd 1) 3
    simp [Matrix.diagonal] at h13

/-- C8: the first `ProcessMeasurement` call (controller uninitialized) stores the
record's timestamp, sets the flag, and writes no member of the estimator other than the
state vector: `P`, `F`, `Q`, `H` and `R` are the ones before the call. -/
theorem ProcessMeasurement_first_frame (c : FusionEKF α) (h : c.is_initialized_ = false)
    (r : MeasurementPackage α) :
    (c.ProcessMeasurement L J r).previous_timestamp_ = r.timestamp_ ∧
    (c.ProcessMeasurement L J r).is_initialized_ = true ∧
    (c.ProcessMeasurement L J r).ekf_ =
      ⟨c.ekf_.1, { c.ekf_.2 with x_ := (c.ProcessMeasurement L J r).ekf_.2.x_ }⟩ ∧
    (c.ProcessMeasurement L J r).ekf_.2.P_ = c.ekf_.2.P_ ∧
    (c.ProcessMeasurement L J r).ekf_.2.F_ = c.ekf_.2.F_ ∧
    (c.ProcessMeasurement L J r).ekf_.2.Q_ = c.ekf_.2.Q_ ∧
    HEq (c.ProcessMeasurement L J r).ekf_.2.H_ c.ekf_.2.H_ ∧
    HEq (c.ProcessMeasurement L J r).ekf_.2.R_ c.ekf_.2.R_ := by
  rw [ProcessMeasurement_uninitialized L J c h]
  exact ⟨rfl, rfl, rfl, rfl, rfl, rfl, HEq.rfl, HEq.rfl⟩

/-- C8 on a freshly constructed controller over the reals, with the lidar record
`(1, 1, t = 0)`. -/
theorem ProcessMeasurement_first_frame_witness :
    (FusionEKF.fresh (0 : Fin 4 → ℝ) 0).is_initialized_ = false ∧
    ((FusionEKF.fresh (0 : Fin 4 → ℝ) 0).ProcessMeasurement
        ⟨Real.sqrt, fun y x => Complex.arg ⟨x, y⟩, Real.cos, Real.sin, Real.pi, Real.pi_pos⟩
        (fun _ => 0) (lidarRecord1 ℝ)).ekf_.2.P_ = (FusionEKF.fresh (0 : Fin 4 → ℝ) 0).ekf_.2.P_ :=
  ⟨rfl, (ProcessMeasurement_first_frame
    ⟨Real.sqrt, fun y x => Complex.arg ⟨x, y⟩, Real.cos, Real.sin, Real.pi, Real.pi_pos⟩
    (fun _ => 0) (FusionEKF.fresh 0 0) rfl (lidarRecord1 ℝ)).2.2.2.1⟩

end Controller

/-- Writing the two time terms of a matrix that is the identity elsewhere gives the
constant-velocity matrix. -/
theorem setCoeff_timeTerms (F : Matrix (Fin 4) (Fin 4) α) (hF : TimeTermsOnly F) (dt : α) :
    setCoeff (setCoeff F 0 2 dt) 1 3 dt =
      !![1, 0, dt, 0;
         0, 1, 0, dt;
         0, 0, 1, 0;
         0, 0, 0, 1] := by
  ext i j
  fin_cases i <;> fin_cases j <;> simp [setCoeff, Matrix.vecHead, Matrix.vecTail] <;>
    (rw [hF _ _ (by decide) (by decide)]; simp)

/-- The constructor writes a transition matrix that is the identity outside the two
time terms. -/
theorem fresh_timeTermsOnly (x0 : Fin 4 → α) (Q0 : Matrix (Fin 4) (Fin 4) α) :
    TimeTermsOnly (FusionEKF.fresh x0 Q0).ekf_.2.F_ := by
  intro i j
  fin_cases i <;> fin_cases j <;> simp [FusionEKF.fresh, Matrix.vecHead, Matrix.vecTail]

section Transition

variable [FloorRing α] (L : Libm α) (J : (Fin 4 → α) → Matrix (Fin 3) (Fin 4) α)

/-- `ProcessMeasurement` keeps the transition matrix the identity outside the two time
terms. -/
theorem ProcessMeasurement_timeTermsOnly (c : FusionEKF α) (r : MeasurementPackage α)
    (hF : TimeTermsOnly c.ekf_.2.F_) :
    TimeTermsOnly (c.ProcessMeasurement L J r).ekf_.2.F_ := by
  rcases Bool.eq_false_or_eq_true c.is_initialized_ with h | h
  · rw [(ProcessMeasurement_initialized L J c h r _ rfl).2.2.1]
    intro i j h1 h2
    rw [← hF i j h1 h2]
    simp [setCoeff, h1, h2]
  · rw [ProcessMeasurement_uninitialized L J c h]
    exact hF

/-- Every controller reached from the constructor has a transition matrix that is the
identity outside the two time terms. -/
theorem run_timeTermsOnly (records : List (MeasurementPackage α)) (c : FusionEKF α)
    (hF : TimeTermsOnly c.ekf_.2.F_) :
    TimeTermsOnly (c.run L J records).ekf_.2.F_ := by
  induction records generalizing c with
  | nil => exact hF
  | cons r rs ih =>
    exact ih (c.ProcessMeasurement L J r) (ProcessMeasurement_timeTermsOnly L J c r hF)

end Transition

section Elapsed

variable [FloorRing α] (L : Libm α) (J : (Fin 4 → α) → Matrix (Fin 3) (Fin 4) α)

/-- After one record a freshly constructed controller is initialized and its reference
timestamp is the record's. -/
theorem run_fresh_singleton (x0 : Fin 4 → α) (Q0 : Matrix (Fin 4) (Fin 4) α)
    (r : MeasurementPackage α) :
    ((FusionEKF.fresh x0 Q0).run L J [r]).is_initialized_ = true ∧
    ((FusionEKF.fresh x0 Q0).run L J [r]).previous_timestamp_ = r.timestamp_ := by
  show ((FusionEKF.fresh x0 Q0).ProcessMeasurement L J r).is_initialized_ = true ∧
    ((FusionEKF.fresh x0 Q0).ProcessMeasurement L J r).previous_timestamp_ = r.timestamp_
  rw [ProcessMeasurement_uninitialized L J _ (fresh_uninitialized x0 Q0)]
  exact ⟨rfl, rfl⟩

/-- C9: on an initialized controller reached from the constructor, a
`ProcessMeasurement` call with record timestamp `t` and stored reference timestamp `t0`
leaves the reference timestamp equal to `t` and the transition matrix equal to the
constant-velocity matrix for `dt = (t − t0)/1000000`; no coefficient of `F` other than
`(0, 2)` and `(1, 3)` is changed by the call. -/
theorem ProcessMeasurement_transition (x0 : Fin 4 → α) (Q0 : Matrix (Fin 4) (Fin 4) α)
    (records : List (MeasurementPackage α)) (r : MeasurementPackage α) (dt : α)
    (h : ((FusionEKF.fresh x0 Q0).run L J records).is_initialized_ = true)
    (hdt : dt = ((r.timestamp_ -
      ((FusionEKF.fresh x0 Q0).run L J records).previous_timestamp_ : ℤ) : α) / 1000000) :
    (((FusionEKF.fresh x0 Q0).run L J records).ProcessMeasurement L J r).previous_timestamp_
      = r.timestamp_ ∧
    (((FusionEKF.fresh x0 Q0).run L J records).ProcessMeasurement L J r).ekf_.2.F_ =
      !![1, 0, dt, 0;
         0, 1, 0, dt;
         0, 0, 1, 0;
         0, 0, 0, 1] ∧
    ∀ i j : Fin 4, ¬ (i = 0 ∧ j = 2) → ¬ (i = 1 ∧ j = 3) →
      (((FusionEKF.fresh x0 Q0).run L J records).ProcessMeasurement L J r).ekf_.2.F_ i j =
        ((FusionEKF.fresh x0 Q0).run L J records).ekf_.2.F_ i j := by
  obtain ⟨h1, -, h3, -⟩ := ProcessMeasurement_initialized L J _ h r dt hdt
  refine ⟨h1, ?_, ?_⟩
  · rw [h3]
    exact setCoeff_timeTerms _ (run_timeTermsOnly L J records _ (fresh_timeTermsOnly x0 Q0)) dt
  · intro i j hi hj
    rw [h3]
    simp [setCoeff, hi, hj]

/-- C9 on the controller that has processed the lidar record `(1, 1, t = 0)`, with the
lidar record `(1.1, 1, t = 100000)`: `dt = 1/10`. -/
theorem ProcessMeasurement_transition_witness :
    (((FusionEKF.fresh (0 : Fin 4 → ℝ) 0).run
        ⟨Real.sqrt, fun y x => Complex.arg ⟨x, y⟩, Real.cos, Real.sin, Real.pi, Real.pi_pos⟩
        (fun _ => 0) [lidarRecord1 ℝ]).is_initialized_ = true ∧
      (1 / 10 : ℝ) = (((lidarRecord2 ℝ).timestamp_ - ((FusionEKF.fresh (0 : Fin 4 → ℝ) 0).run
        ⟨Real.sqrt, fun y x => Complex.arg ⟨x, y⟩, Real.cos, Real.sin, Real.pi, Real.pi_pos⟩
        (fun _ => 0) [lidarRecord1 ℝ]).previous_timestamp_ : ℤ) : ℝ) / 1000000) ∧
    (((FusionEKF.fresh (0 : Fin 4 → ℝ) 0).run
        ⟨Real.sqrt, fun y x => Complex.arg ⟨x, y⟩, Real.cos, Real.sin, Real.pi, Real.pi_pos⟩
        (fun _ => 0) [lidarRecord1 ℝ]).ProcessMeasurement
        ⟨Real.sqrt, fun y x => Complex.arg ⟨x, y⟩, Real.cos, Real.sin, Real.pi, Real.pi_pos⟩
        (fun _ => 0) (lidarRecord2 ℝ)).ekf_.2.F_ =
      !![1, 0, 1 / 10, 0;
         0, 1, 0, 1 / 10;
         0, 0, 1, 0;
         0, 0, 0, 1] := by
  have h := (run_fresh_singleton
    ⟨Real.sqrt, fun y x => Complex.arg ⟨x, y⟩, Real.cos, Real.sin, Real.pi, Real.pi_pos⟩
    (fun _ => 0) (0 : Fin 4 → ℝ) 0 (lidarRecord1 ℝ)).1
  have hdt : (1 / 10 : ℝ) = (((lidarRecord2 ℝ).timestamp_ -
      ((FusionEKF.fresh (0 : Fin 4 → ℝ) 0).run
        ⟨Real.sqrt, fun y x => Complex.arg ⟨x, y⟩, Real.cos, Real.sin, Real.pi, Real.pi_pos⟩
        (fun _ => 0) [lidarRecord1 ℝ]).previous_timestamp_ : ℤ) : ℝ) / 1000000 := by
    rw [(run_fresh_singleton _ _ _ _ _).2]
    norm_num [lidarRecord1, lidarRecord2]
  exact ⟨⟨h, hdt⟩, (ProcessMeasurement_transition _ _ 0 0 [lidarRecord1 ℝ] (lidarRecord2 ℝ)
    (1 / 10) h hdt).2.1⟩

end Elapsed

section ProcessNoise

variable [FloorRing α] (L : Libm α) (J : (Fin 4 → α) → Matrix (Fin 3) (Fin 4) α)

/-- A later call of `ProcessMeasurement`: the estimator it leaves is the update step
applied to `p`, the result of `Predict` on the estimator with the `F` and `Q` the call
has written. -/
theorem ProcessMeasurement_initialized_ekf (c : FusionEKF α) (h : c.is_initialized_ = true)
    (r : MeasurementPackage α) (p : KalmanFilter α 4 c.ekf_.1)
    (hp : p = ({ c.ekf_.2 with
      F_ := (c.ProcessMeasurement L J r).ekf_.2.F_
      Q_ := (c.ProcessMeasurement L J r).ekf_.2.Q_ }).Predict) :
    (r.sensor_type_ = SensorType.RADAR →
      (c.ProcessMeasurement L J r).ekf_ = ⟨3, KalmanFilter.UpdateEKF L
        { x_ := p.x_, P_ := p.P_, F_ := p.F_, Q_ := p.Q_, H_ := J p.x_, R_ := c.R_radar_ }
        ![r.raw_measurements_ 0, r.raw_measurements_ 1, r.raw_measurements_ 2]⟩) ∧
    (¬ r.sensor_type_ = SensorType.RADAR →
      (c.ProcessMeasurement L J r).ekf_ = ⟨2, KalmanFilter.Update
        { x_ := p.x_, P_ := p.P_, F_ := p.F_, Q_ := p.Q_, H_ := c.H_laser_,
          R_ := c.R_laser_ }
        ![r.raw_measurements_ 0, r.raw_measurements_ 1]⟩) := by
  obtain ⟨-, -, hF, hQ⟩ := ProcessMeasurement_initialized L J c h r _ rfl
  rw [hF, hQ] at hp
  subst hp
  have h' : ¬ c.is_initialized_ = false := by simp [h]
  have eta : ∀ v : Fin 4 → α, ![v 0, v 1, v 2, v 3] = v := by
    intro v
    ext i
    fin_cases i <;> rfl
  constructor
  · intro hs
    unfold FusionEKF.ProcessMeasurement
    dsimp only
    rw [if_neg h', if_pos hs, eta]
  · intro hs
    unfold FusionEKF.ProcessMeasurement
    dsimp only
    rw [if_neg h', if_neg hs]

/-- C10: on an initialized controller, with `dt` the elapsed time of the record, the
process noise `ProcessMeasurement` builds is `Q(0,0) = Q(1,1) = 9·dt⁴/4`,
`Q(0,2) = Q(2,0) = Q(1,3) = Q(3,1) = 9·dt³/2`, `Q(2,2) = Q(3,3) = 9·dt²`, and `0` in every
coefficient coupling the two axes; it is the `Q` of the estimator `Predict` is called on,
whose result `p` is the estimator handed to the update step. -/
theorem ProcessMeasurement_process_noise (c : FusionEKF α) (h : c.is_initialized_ = true)
    (r : MeasurementPackage α) (dt : α)
    (hdt : dt = ((r.timestamp_ - c.previous_timestamp_ : ℤ) : α) / 1000000) :
    (c.ProcessMeasurement L J r).ekf_.2.Q_ =
      !![9 * dt ^ 4 / 4, 0, 9 * dt ^ 3 / 2, 0;
         0, 9 * dt ^ 4 / 4, 0, 9 * dt ^ 3 / 2;
         9 * dt ^ 3 / 2, 0, 9 * dt ^ 2, 0;
         0, 9 * dt ^ 3 / 2, 0, 9 * dt ^ 2] ∧
    ∀ p : KalmanFilter α 4 c.ekf_.1,
      p = ({ c.ekf_.2 with
        F_ := (c.ProcessMeasurement L J r).ekf_.2.F_
        Q_ := (c.ProcessMeasurement L J r).ekf_.2.Q_ }).Predict →
      (r.sensor_type_ = SensorType.RADAR →
        (c.ProcessMeasurement L J r).ekf_ = ⟨3, KalmanFilter.UpdateEKF L
          { x_ := p.x_, P_ := p.P_, F_ := p.F_, Q_ := p.Q_, H_ := J p.x_, R_ := c.R_radar_ }
          ![r.raw_measurements_ 0, r.raw_measurements_ 1, r.raw_measurements_ 2]⟩) ∧
      (¬ r.sensor_type_ = SensorType.RADAR →
        (c.ProcessMeasurement L J r).ekf_ = ⟨2, KalmanFilter.Update
          { x_ := p.x_, P_ := p.P_, F_ := p.F_, Q_ := p.Q_, H_ := c.H_laser_,
            R_ := c.R_laser_ }
          ![r.raw_measurements_ 0, r.raw_measurements_ 1]⟩) := by
  refine ⟨?_, fun p hp => ProcessMeasurement_initialized_ekf L J c h r p hp⟩
  rw [(ProcessMeasurement_initialized L J c h r dt hdt).2.2.2]
  have e4 : dt * dt * dt * dt / 4 * 9 = 9 * dt ^ 4 / 4 := by ring
  have e3 : dt * dt * dt / 2 * 9 = 9 * dt ^ 3 / 2 := by ring
  have e2 : dt * dt * 9 = 9 * dt ^ 2 := by ring
  rw [e4, e3, e2]

/-- C10 on the controller that has processed the lidar record `(1, 1, t = 0)`, with the
lidar record `(1.1, 1, t = 100000)`: `dt = 1/10`. -/
theorem ProcessMeasurement_process_noise_witness :
    (((FusionEKF.fresh (0 : Fin 4 → ℝ) 0).run
        ⟨Real.sqrt, fun y x => Complex.arg ⟨x, y⟩, Real.cos, Real.sin, Real.pi, Real.pi_pos⟩
        (fun _ => 0) [lidarRecord1 ℝ]).is_initialized_ = true ∧
      (1 / 10 : ℝ) = (((lidarRecord2 ℝ).timestamp_ - ((FusionEKF.fresh (0 : Fin 4 → ℝ) 0).run
        ⟨Real.sqrt, fun y x => Complex.arg ⟨x, y⟩, Real.cos, Real.sin, Real.pi, Real.pi_pos⟩
        (fun _ => 0) [lidarRecord1 ℝ]).previous_timestamp_ : ℤ) : ℝ) / 1000000) ∧
    (((FusionEKF.fresh (0 : Fin 4 → ℝ) 0).run
        ⟨Real.sqrt, fun y x => Complex.arg ⟨x, y⟩, Real.cos, Real.sin, Real.pi, Real.pi_pos⟩
        (fun _ => 0) [lidarRecord1 ℝ]).ProcessMeasurement
        ⟨Real.sqrt, fun y x => Complex.arg ⟨x, y⟩, Real.cos, Real.sin, Real.pi, Real.pi_pos⟩
        (fun _ => 0) (lidarRecord2 ℝ)).ekf_.2.Q_ =
      !![9 * (1 / 10 : ℝ) ^ 4 / 4, 0, 9 * (1 / 10 : ℝ) ^ 3 / 2, 0;
         0, 9 * (1 / 10 : ℝ) ^ 4 / 4, 0, 9 * (1 / 10 : ℝ) ^ 3 / 2;
         9 * (1 / 10 : ℝ) ^ 3 / 2, 0, 9 * (1 / 10 : ℝ) ^ 2, 0;
         0, 9 * (1 / 10 : ℝ) ^ 3 / 2, 0, 9 * (1 / 10 : ℝ) ^ 2] := by
  have h := (run_fresh_singleton
    ⟨Real.sqrt, fun y x => Complex.arg ⟨x, y⟩, Real.cos, Real.sin, Real.pi, Real.pi_pos⟩
    (fun _ => 0) (0 : Fin 4 → ℝ) 0 (lidarRecord1 ℝ)).1
  have hdt : (1 / 10 : ℝ) = (((lidarRecord2 ℝ).timestamp_ -
      ((FusionEKF.fresh (0 : Fin 4 → ℝ) 0).run
        ⟨Real.sqrt, fun y x => Complex.arg ⟨x, y⟩, Real.cos, Real.sin, Real.pi, Real.pi_pos⟩
        (fun _ => 0) [lidarRecord1 ℝ]).previous_timestamp_ : ℤ) : ℝ) / 1000000 := by
    rw [(run_fresh_singleton _ _ _ _ _).2]
    norm_num [lidarRecord1, lidarRecord2]
  exact ⟨⟨h, hdt⟩, (ProcessMeasurement_process_noise _ _ _ h (lidarRecord2 ℝ)
    (1 / 10) hdt).1⟩

end ProcessNoise

section Lidar

variable [FloorRing α] (L : Libm α) (J : (Fin 4 → α) → Matrix (Fin 3) (Fin 4) α)

/-- `ProcessMeasurement` writes neither `R_laser_`, `R_radar_` nor `H_laser_`. -/
theorem ProcessMeasurement_constants (c : FusionEKF α) (r : MeasurementPackage α) :
    (c.ProcessMeasurement L J r).R_laser_ = c.R_laser_ ∧
    (c.ProcessMeasurement L J r).R_radar_ = c.R_radar_ ∧
    (c.ProcessMeasurement L J r).H_laser_ = c.H_laser_ := by
  unfold FusionEKF.ProcessMeasurement
  dsimp only
  split
  · exact ⟨rfl, rfl, rfl⟩
  · split <;> exact ⟨rfl, rfl, rfl⟩

/-- Every controller reached from `c` has the `R_laser_`, `R_radar_` and `H_laser_` of
`c`. -/
theorem run_constants (records : List (MeasurementPackage α)) (c : FusionEKF α) :
    (c.run L J records).R_laser_ = c.R_laser_ ∧
    (c.run L J records).R_radar_ = c.R_radar_ ∧
    (c.run L J records).H_laser_ = c.H_laser_ := by
  induction records generalizing c with
  | nil => exact ⟨rfl, rfl, rfl⟩
  | cons r rs ih =>
    obtain ⟨h1, h2, h3⟩ := ih (c.ProcessMeasurement L J r)
    obtain ⟨g1, g2, g3⟩ := ProcessMeasurement_constants L J c r
    exact ⟨h1.trans g1, h2.trans g2, h3.trans g3⟩

/-- C11: on an initialized controller `c` reached from the constructor, a lidar record
`(px, py, t)` leaves the estimator equal to `Update((px, py))` applied to `p`, the result
of `Predict` with the constant-velocity `F` and the process noise `Q` of the elapsed time
`dt = (t − t0)/1000000`, with the observation matrix `[[1,0,0,0],[0,1,0,0]]` and the
measurement noise `[[0.0225,0],[0,0.0225]]`. -/
theorem ProcessMeasurement_lidar (x0 : Fin 4 → α) (Q0 : Matrix (Fin 4) (Fin 4) α)
    (records : List (MeasurementPackage α)) (c : FusionEKF α)
    (hc : c = (FusionEKF.fresh x0 Q0).run L J records) (h : c.is_initialized_ = true)
    (t : ℤ) (px py w dt : α)
    (hdt : dt = ((t - c.previous_timestamp_ : ℤ) : α) / 1000000) :
    ∀ p : KalmanFilter α 4 c.ekf_.1,
      p = ({ c.ekf_.2 with
        F_ := !![1, 0, dt, 0;
                 0, 1, 0, dt;
                 0, 0, 1, 0;
                 0, 0, 0, 1]
        Q_ := !![9 * dt ^ 4 / 4, 0, 9 * dt ^ 3 / 2, 0;
                 0, 9 * dt ^ 4 / 4, 0, 9 * dt ^ 3 / 2;
                 9 * dt ^ 3 / 2, 0, 9 * dt ^ 2, 0;
                 0, 9 * dt ^ 3 / 2, 0, 9 * dt ^ 2] }).Predict →
      (c.ProcessMeasurement L J ⟨SensorType.LASER, t, ![px, py, w]⟩).ekf_ =
        ⟨2, KalmanFilter.Update
          { x_ := p.x_, P_ := p.P_, F_ := p.F_, Q_ := p.Q_,
            H_ := !![1, 0, 0, 0;
                     0, 1, 0, 0]
            R_ := !![0.0225, 0;
                     0, 0.0225] }
          ![px, py]⟩ := by
  intro p hp
  have hF : TimeTermsOnly c.ekf_.2.F_ := by
    rw [hc]
    exact run_timeTermsOnly L J records _ (fresh_timeTermsOnly x0 Q0)
  have hR : c.R_laser_ = !![0.0225, 0; 0, 0.0225] := by
    rw [hc]
    exact (run_constants L J records _).1
  have hH : c.H_laser_ = !![1, 0, 0, 0; 0, 1, 0, 0] := by
    rw [hc]
    exact (run_constants L J records _).2.2
  obtain ⟨-, -, gF, gQ⟩ :=
    ProcessMeasurement_initialized L J c h ⟨SensorType.LASER, t, ![px, py, w]⟩ dt hdt
  have e4 : dt * dt * dt * dt / 4 * 9 = 9 * dt ^ 4 / 4 := by ring
  have e3 : dt * dt * dt / 2 * 9 = 9 * dt ^ 3 / 2 := by ring
  have e2 : dt * dt * 9 = 9 * dt ^ 2 := by ring
  rw [setCoeff_timeTerms _ hF dt] at gF
  rw [e4, e3, e2] at gQ
  rw [← gF, ← gQ] at hp
  have key := (ProcessMeasurement_initialized_ekf L J c h
    ⟨SensorType.LASER, t, ![px, py, w]⟩ p hp).2 (by simp)
  rw [key, hR, hH]
  simp

end Lidar

/-- C11 on the controller that has processed the lidar record `(1, 1, t = 0)`, with the
lidar record `(1.1, 1, t = 100000)` and `dt = 1/10`: the estimator left by the call is a
lidar estimator, the result of `Update`. -/
theorem ProcessMeasurement_lidar_witness :
    (((FusionEKF.fresh (0 : Fin 4 → ℝ) 0).run
        ⟨Real.sqrt, fun y x => Complex.arg ⟨x, y⟩, Real.cos, Real.sin, Real.pi, Real.pi_pos⟩
        (fun _ => 0) [lidarRecord1 ℝ]).is_initialized_ = true ∧
      (1 / 10 : ℝ) = (((100000 : ℤ) - ((FusionEKF.fresh (0 : Fin 4 → ℝ) 0).run
        ⟨Real.sqrt, fun y x => Complex.arg ⟨x, y⟩, Real.cos, Real.sin, Real.pi, Real.pi_pos⟩
        (fun _ => 0) [lidarRecord1 ℝ]).previous_timestamp_ : ℤ) : ℝ) / 1000000) ∧
    (((FusionEKF.fresh (0 : Fin 4 → ℝ) 0).run
        ⟨Real.sqrt, fun y x => Complex.arg ⟨x, y⟩, Real.cos, Real.sin, Real.pi, Real.pi_pos⟩
        (fun _ => 0) [lidarRecord1 ℝ]).ProcessMeasurement
        ⟨Real.sqrt, fun y x => Complex.arg ⟨x, y⟩, Real.cos, Real.sin, Real.pi, Real.pi_pos⟩
        (fun _ => 0) ⟨SensorType.LASER, 100000, ![1.1, 1, 0]⟩).ekf_.1 = 2 := by
  have h := (run_fresh_singleton
    ⟨Real.sqrt, fun y x => Complex.arg ⟨x, y⟩, Real.cos, Real.sin, Real.pi, Real.pi_pos⟩
    (fun _ => 0) (0 : Fin 4 → ℝ) 0 (lidarRecord1 ℝ)).1
  have hdt : (1 / 10 : ℝ) = (((100000 : ℤ) - ((FusionEKF.fresh (0 : Fin 4 → ℝ) 0).run
        ⟨Real.sqrt, fun y x => Complex.arg ⟨x, y⟩, Real.cos, Real.sin, Real.pi, Real.pi_pos⟩
        (fun _ => 0) [lidarRecord1 ℝ]).previous_timestamp_ : ℤ) : ℝ) / 1000000 := by
    rw [(run_fresh_singleton _ _ _ _ _).2]
    norm_num [lidarRecord1]
  exact ⟨⟨h, hdt⟩, congrArg Sigma.fst (ProcessMeasurement_lidar _ _ 0 0 [lidarRecord1 ℝ] _ rfl h
    100000 1.1 1 0 (1 / 10) hdt _ rfl)⟩

/-- With the identity as `F` and zero as `Q`, `Predict` changes neither `x` nor `P`. -/
theorem Predict_identity {n m : ℕ} (k : KalmanFilter α n m) (hF : k.F_ = 1) (hQ : k.Q_ = 0) :
    k.Predict.x_ = k.x_ ∧ k.Predict.P_ = k.P_ := by
  simp [KalmanFilter.Predict, hF, hQ]

section ZeroElapsed

variable [FloorRing α] (L : Libm α) (J : (Fin 4 → α) → Matrix (Fin 3) (Fin 4) α)

/-- A record whose timestamp is the stored reference timestamp makes `ProcessMeasurement`
write the identity to `F` and zero to `Q`. -/
theorem ProcessMeasurement_zero_elapsed_FQ (c : FusionEKF α) (h : c.is_initialized_ = true)
    (hF : TimeTermsOnly c.ekf_.2.F_) (r : MeasurementPackage α)
    (ht : r.timestamp_ = c.previous_timestamp_) :
    (c.ProcessMeasurement L J r).ekf_.2.F_ = 1 ∧ (c.ProcessMeasurement L J r).ekf_.2.Q_ = 0 := by
  obtain ⟨-, -, gF, gQ⟩ := ProcessMeasurement_initialized L J c h r 0 (by simp [ht])
  rw [setCoeff_timeTerms _ hF 0] at gF
  constructor
  · rw [gF]
    ext i j
    fin_cases i <;> fin_cases j <;> simp [Matrix.one_apply, Matrix.vecHead, Matrix.vecTail]
  · rw [gQ]
    ext i j
    fin_cases i <;> fin_cases j <;> simp [Matrix.vecHead, Matrix.vecTail]

/-- C12: on an initialized controller whose transition matrix is the identity outside the
two time terms (as it is on every controller reached from the constructor), a record with
elapsed time 0 makes `ProcessMeasurement` build `F = 1` and `Q = 0`; `Predict` then leaves
the state vector and the covariance unchanged, and the update step is applied to the
`x` and `P` the controller had before the call. -/
theorem ProcessMeasurement_zero_elapsed (c : FusionEKF α) (h : c.is_initialized_ = true)
    (hF : TimeTermsOnly c.ekf_.2.F_) (r : MeasurementPackage α)
    (ht : r.timestamp_ = c.previous_timestamp_) :
    (c.ProcessMeasurement L J r).ekf_.2.F_ = 1 ∧
    (c.ProcessMeasurement L J r).ekf_.2.Q_ = 0 ∧
    (({ c.ekf_.2 with
        F_ := (c.ProcessMeasurement L J r).ekf_.2.F_
        Q_ := (c.ProcessMeasurement L J r).ekf_.2.Q_ }).Predict).x_ = c.ekf_.2.x_ ∧
    (({ c.ekf_.2 with
        F_ := (c.ProcessMeasurement L J r).ekf_.2.F_
        Q_ := (c.ProcessMeasurement L J r).ekf_.2.Q_ }).Predict).P_ = c.ekf_.2.P_ ∧
    (r.sensor_type_ = SensorType.RADAR →
      (c.ProcessMeasurement L J r).ekf_ = ⟨3, KalmanFilter.UpdateEKF L
        { x_ := c.ekf_.2.x_, P_ := c.ekf_.2.P_, F_ := 1, Q_ := 0, H_ := J c.ekf_.2.x_,
          R_ := c.R_radar_ }
        ![r.raw_measurements_ 0, r.raw_measurements_ 1, r.raw_measurements_ 2]⟩) ∧
    (¬ r.sensor_type_ = SensorType.RADAR →
      (c.ProcessMeasurement L J r).ekf_ = ⟨2, KalmanFilter.Update
        { x_ := c.ekf_.2.x_, P_ := c.ekf_.2.P_, F_ := 1, Q_ := 0, H_ := c.H_laser_,
          R_ := c.R_laser_ }
        ![r.raw_measurements_ 0, r.raw_measurements_ 1]⟩) := by
  obtain ⟨gF, gQ⟩ := ProcessMeasurement_zero_elapsed_FQ L J c h hF r ht
  obtain ⟨px, pP⟩ := Predict_identity
    ({ c.ekf_.2 with
        F_ := (c.ProcessMeasurement L J r).ekf_.2.F_
        Q_ := (c.ProcessMeasurement L J r).ekf_.2.Q_ }) gF gQ
  obtain ⟨kR, kL⟩ := ProcessMeasurement_initialized_ekf L J c h r _ rfl
  refine ⟨gF, gQ, px, pP, ?_, ?_⟩
  · intro hs
    rw [kR hs, px, pP]
    simp only [KalmanFilter.Predict, gF, gQ]
  · intro hs
    rw [kL hs, px, pP]
    simp only [KalmanFilter.Predict, gF, gQ]

end ZeroElapsed

/-- On an invertible `S`, with inverse `Si`, `UpdateDefined` has the result `Update`. -/
theorem UpdateDefined_eq_some {n m : ℕ} (k : KalmanFilter α n m) (z : Fin m → α)
    (Si : Matrix (Fin m) (Fin m) α) (hSi : (k.H_ * k.P_ * k.H_ᵀ + k.R_) * Si = 1) :
    k.UpdateDefined z = some (k.Update z) := by
  have hdet : (k.H_ * k.P_ * k.H_ᵀ + k.R_).det ≠ 0 := by
    intro h0
    have h1 := congrArg Matrix.det hSi
    rw [Matrix.det_mul, h0, zero_mul, Matrix.det_one] at h1
    exact zero_ne_one h1
  simp only [KalmanFilter.UpdateDefined, inverseDefined, if_neg hdet, Option.map_some']
  rfl

/-- On a singular `S`, `UpdateDefined` has no result. -/
theorem UpdateDefined_eq_none {n m : ℕ} (k : KalmanFilter α n m) (z : Fin m → α)
    (h : (k.H_ * k.P_ * k.H_ᵀ + k.R_).det = 0) : k.UpdateDefined z = none := by
  simp only [KalmanFilter.UpdateDefined, inverseDefined, if_pos h, Option.map_none']

/-- C13 fails as stated: on the estimator `singularExample`, where `P = 0` and `R = 0`,
the innovation covariance is the zero matrix, `S.inverse()` has no result, and
`Update(z)` with `z = H·x` leaves no state vector, so not the one before the call. -/
theorem Update_singular_undefined :
    singularExample.H_ * singularExample.P_ * singularExample.H_ᵀ + singularExample.R_ = 0 ∧
    singularExample.UpdateDefined (singularExample.H_ *ᵥ singularExample.x_) = none ∧
    ¬ ∃ k, singularExample.UpdateDefined (singularExample.H_ *ᵥ singularExample.x_) = some k ∧
      k.x_ = singularExample.x_ := by
  have hS : singularExample.H_ * singularExample.P_ * singularExample.H_ᵀ
      + singularExample.R_ = 0 := by
    simp [singularExample]
  have hnone : singularExample.UpdateDefined (singularExample.H_ *ᵥ singularExample.x_)
      = none := by
    apply UpdateDefined_eq_none
    rw [hS]
    simp
  refine ⟨hS, hnone, ?_⟩
  rintro ⟨k, hk, -⟩
  rw [hnone] at hk
  exact Option.noConfusion hk

/-- C13, amended: when `S = H·P·Hᵀ + R` is invertible, with inverse `Si`, `Update(z)`
called with `z = H·x` has a result and leaves the state vector unchanged: the innovation
is zero, and so is the gain applied to it. -/
theorem Update_zero_innovation {n m : ℕ} (k : KalmanFilter α n m)
    (Si : Matrix (Fin m) (Fin m) α) (hSi : (k.H_ * k.P_ * k.H_ᵀ + k.R_) * Si = 1) :
    k.UpdateDefined (k.H_ *ᵥ k.x_) = some (k.Update (k.H_ *ᵥ k.x_)) ∧
    (k.Update (k.H_ *ᵥ k.x_)).x_ = k.x_ ∧
    ∃ k', k.UpdateDefined (k.H_ *ᵥ k.x_) = some k' ∧ k'.x_ = k.x_ := by
  have hx : (k.Update (k.H_ *ᵥ k.x_)).x_ = k.x_ := by
    show k.x_ + (k.P_ * k.H_ᵀ * inverse (k.H_ * k.P_ * k.H_ᵀ + k.R_)) *ᵥ
      (k.H_ *ᵥ k.x_ - k.H_ *ᵥ k.x_) = k.x_
    rw [sub_self, Matrix.mulVec_zero, add_zero]
  exact ⟨UpdateDefined_eq_some k _ Si hSi, hx, _, UpdateDefined_eq_some k _ Si hSi, hx⟩

/-- C13, amended, at the lidar estimator `lidarExample`, where `S = diag(1.0225, 1.0225)`
has the inverse `diag(400/409, 400/409)`. -/
theorem Update_zero_innovation_witness :
    (lidarExample.H_ * lidarExample.P_ * lidarExample.H_ᵀ + lidarExample.R_)
        * lidarExampleSi = 1 ∧
    (lidarExample.Update (lidarExample.H_ *ᵥ lidarExample.x_)).x_ = lidarExample.x_ := by
  have h : (lidarExample.H_ * lidarExample.P_ * lidarExample.H_ᵀ + lidarExample.R_)
      * lidarExampleSi = 1 := by
    ext i j
    fin_cases i <;> fin_cases j <;>
      norm_num [lidarExample, lidarExampleSi, Matrix.mul_apply, Fin.sum_univ_succ,
        Matrix.vecHead, Matrix.vecTail]
  exact ⟨h, (Update_zero_innovation lidarExample lidarExampleSi h).2.1⟩

/-- C12 on the controller that has processed the lidar record `(1, 1, t = 0)`, with a
second lidar record at the same timestamp `t = 0`. -/
theorem ProcessMeasurement_zero_elapsed_witness :
    (((FusionEKF.fresh (0 : Fin 4 → ℝ) 0).run
        ⟨Real.sqrt, fun y x => Complex.arg ⟨x, y⟩, Real.cos, Real.sin, Real.pi, Real.pi_pos⟩
        (fun _ => 0) [lidarRecord1 ℝ]).is_initialized_ = true ∧
      TimeTermsOnly ((FusionEKF.fresh (0 : Fin 4 → ℝ) 0).run
        ⟨Real.sqrt, fun y x => Complex.arg ⟨x, y⟩, Real.cos, Real.sin, Real.pi, Real.pi_pos⟩
        (fun _ => 0) [lidarRecord1 ℝ]).ekf_.2.F_ ∧
      (0 : ℤ) = ((FusionEKF.fresh (0 : Fin 4 → ℝ) 0).run
        ⟨Real.sqrt, fun y x => Complex.arg ⟨x, y⟩, Real.cos, Real.sin, Real.pi, Real.pi_pos⟩
        (fun _ => 0) [lidarRecord1 ℝ]).previous_timestamp_) ∧
    (((FusionEKF.fresh (0 : Fin 4 → ℝ) 0).run
        ⟨Real.sqrt, fun y x => Complex.arg ⟨x, y⟩, Real.cos, Real.sin, Real.pi, Real.pi_pos⟩
        (fun _ => 0) [lidarRecord1 ℝ]).ProcessMeasurement
        ⟨Real.sqrt, fun y x => Complex.arg ⟨x, y⟩, Real.cos, Real.sin, Real.pi, Real.pi_pos⟩
        (fun _ => 0) ⟨SensorType.LASER, 0, ![1.1, 1, 0]⟩).ekf_.2.F_ = 1 := by
  have h := (run_fresh_singleton
    ⟨Real.sqrt, fun y x => Complex.arg ⟨x, y⟩, Real.cos, Real.sin, Real.pi, Real.pi_pos⟩
    (fun _ => 0) (0 : Fin 4 → ℝ) 0 (lidarRecord1 ℝ)).1
  have hF := run_timeTermsOnly
    ⟨Real.sqrt, fun y x => Complex.arg ⟨x, y⟩, Real.cos, Real.sin, Real.pi, Real.pi_pos⟩
    (fun _ => 0) [lidarRecord1 ℝ] _ (fresh_timeTermsOnly (0 : Fin 4 → ℝ) 0)
  have ht : (0 : ℤ) = ((FusionEKF.fresh (0 : Fin 4 → ℝ) 0).run
        ⟨Real.sqrt, fun y x => Complex.arg ⟨x, y⟩, Real.cos, Real.sin, Real.pi, Real.pi_pos⟩
        (fun _ => 0) [lidarRecord1 ℝ]).previous_timestamp_ := by
    rw [(run_fresh_singleton _ _ _ _ _).2]
    rfl
  exact ⟨⟨h, hF, ht⟩, (ProcessMeasurement_zero_elapsed _ _ _ h hF
    ⟨SensorType.LASER, 0, ![1.1, 1, 0]⟩ ht).1⟩

section Flag

variable [FloorRing α] (L : Libm α) (J : (Fin 4 → α) → Matrix (Fin 3) (Fin 4) α)

/-- Whatever the controller, the flag is set when `ProcessMeasurement` returns. -/
theorem ProcessMeasurement_sets_flag (c : FusionEKF α) (r : MeasurementPackage α) :
    (c.ProcessMeasurement L J r).is_initialized_ = true := by
  rcases Bool.eq_false_or_eq_true c.is_initialized_ with h | h
  · exact (ProcessMeasurement_initialized L J c h r _ rfl).2.1
  · rw [ProcessMeasurement_uninitialized L J c h]

/-- An initialized controller stays initialized along every stream of records. -/
theorem run_keeps_flag (records : List (MeasurementPackage α)) (c : FusionEKF α)
    (h : c.is_initialized_ = true) : (c.run L J records).is_initialized_ = true := by
  induction records generalizing c with
  | nil => exact h
  | cons r rs ih => exact ih _ (ProcessMeasurement_sets_flag L J c r)

/-- C15: a freshly constructed controller is uninitialized; whatever the controller and
the record, the flag is set after `ProcessMeasurement`; hence after a first record and
any number of further records the controller is initialized. -/
theorem flag_irreversible :
    (∀ (x0 : Fin 4 → α) (Q0 : Matrix (Fin 4) (Fin 4) α),
      (FusionEKF.fresh x0 Q0).is_initialized_ = false) ∧
    (∀ (c : FusionEKF α) (r : MeasurementPackage α),
      (c.ProcessMeasurement L J r).is_initialized_ = true) ∧
    (∀ (c : FusionEKF α) (r : MeasurementPackage α) (rs : List (MeasurementPackage α)),
      (c.run L J (r :: rs)).is_initialized_ = true) ∧
    (∀ (c : FusionEKF α) (r : MeasurementPackage α) (rs rs' : List (MeasurementPackage α)),
      (c.run L J (r :: rs ++ rs')).is_initialized_ = true) := by
  refine ⟨fun _ _ => rfl, ProcessMeasurement_sets_flag L J, ?_, ?_⟩
  · intro c r rs
    exact run_keeps_flag L J rs _ (ProcessMeasurement_sets_flag L J c r)
  · intro c r rs rs'
    exact run_keeps_flag L J (rs ++ rs') _ (ProcessMeasurement_sets_flag L J c r)

end Flag

/-- The innovation covariance of `scenarioPredicted` has the inverse `scenarioSi`. -/
theorem scenario_mul_Si :
    ((scenarioPredicted α).H_ * (scenarioPredicted α).P_ * (scenarioPredicted α).H_ᵀ
      + (scenarioPredicted α).R_) * scenarioSi α = 1 := by
  ext i j
  fin_cases i <;> fin_cases j <;>
    norm_num [scenarioPredicted, scenarioSi, Matrix.mul_apply, Fin.sum_univ_succ,
      Matrix.vecHead, Matrix.vecTail]

/-- The velocity-x that `Update` computes from `scenarioPredicted` and the measurement
`(1.1, 1)`. -/
theorem scenario_update_vx :
    ((scenarioPredicted α).Update ![1.1, 1]).x_ 2 = 400018 / 440909 := by
  simp only [KalmanFilter.Update, inverse_eq_of_mul_eq_one _ _ (scenario_mul_Si (α := α))]
  norm_num [scenarioPredicted, scenarioSi, Matrix.mul_apply, Matrix.mulVec, Matrix.dotProduct,
    Fin.sum_univ_succ, Matrix.vecHead, Matrix.vecTail]

/-- The constant-velocity matrix for `dt = 1/10` applied to the state `(1, 1, 0, 0)`. -/
theorem scenario_predict_x :
    (!![1, 0, 1 / 10, 0;
        0, 1, 0, 1 / 10;
        0, 0, 1, 0;
        0, 0, 0, 1] : Matrix (Fin 4) (Fin 4) α) *ᵥ ![1, 1, 0, 0] = ![1, 1, 0, 0] := by
  ext i
  fin_cases i <;>
    norm_num [Matrix.mulVec, Matrix.dotProduct, Fin.sum_univ_succ, Matrix.vecHead,
      Matrix.vecTail]

set_option maxHeartbeats 1000000 in
/-- The product `F·P` of the scenario, for the covariance the constructor wrote. -/
theorem scenario_predict_FP :
    (!![1, 0, 1 / 10, 0;
        0, 1, 0, 1 / 10;
        0, 0, 1, 0;
        0, 0, 0, 1] : Matrix (Fin 4) (Fin 4) α) *
      !![1, 0, 0, 0;
         0, 1, 0, 1;
         0, 0, 1000, 0;
         0, 0, 0, 1000] =
      !![1, 0, 100, 0;
         0, 1, 0, 101;
         0, 0, 1000, 0;
         0, 0, 0, 1000] := by
  ext i j
  fin_cases i <;> fin_cases j <;>
    norm_num [Matrix.mul_apply, Fin.sum_univ_succ, Matrix.vecHead, Matrix.vecTail]

set_option maxHeartbeats 1000000 in
/-- The covariance `F·P·Fᵀ + Q` of the scenario after `Predict`. -/
theorem scenario_predict_P :
    (!![1, 0, 100, 0;
        0, 1, 0, 101;
        0, 0, 1000, 0;
        0, 0, 0, 1000] : Matrix (Fin 4) (Fin 4) α) *
      (!![1, 0, 1 / 10, 0;
          0, 1, 0, 1 / 10;
          0, 0, 1, 0;
          0, 0, 0, 1] : Matrix (Fin 4) (Fin 4) α)ᵀ +
      !![1 / 10 * (1 / 10) * (1 / 10) * (1 / 10) / 4 * 9, 0, 1 / 10 * (1 / 10) * (1 / 10) / 2 * 9, 0;
         0, 1 / 10 * (1 / 10) * (1 / 10) * (1 / 10) / 4 * 9, 0, 1 / 10 * (1 / 10) * (1 / 10) / 2 * 9;
         1 / 10 * (1 / 10) * (1 / 10) / 2 * 9, 0, 1 / 10 * (1 / 10) * 9, 0;
         0, 1 / 10 * (1 / 10) * (1 / 10) / 2 * 9, 0, 1 / 10 * (1 / 10) * 9] =
      !![11.000225, 0, 100.0045, 0;
         0, 11.100225, 0, 101.0045;
         100.0045, 0, 1000.09, 0;
         0, 100.0045, 0, 1000.09] := by
  ext i j
  fin_cases i <;> fin_cases j <;>
    norm_num [Matrix.mul_apply, Fin.sum_univ_succ, Matrix.vecHead, Matrix.vecTail]

/-- The process noise of the scenario, `dt = 1/10`, in decimals. -/
theorem scenario_Q :
    (!![1 / 10 * (1 / 10) * (1 / 10) * (1 / 10) / 4 * 9, 0, 1 / 10 * (1 / 10) * (1 / 10) / 2 * 9, 0;
        0, 1 / 10 * (1 / 10) * (1 / 10) * (1 / 10) / 4 * 9, 0, 1 / 10 * (1 / 10) * (1 / 10) / 2 * 9;
        1 / 10 * (1 / 10) * (1 / 10) / 2 * 9, 0, 1 / 10 * (1 / 10) * 9, 0;
        0, 1 / 10 * (1 / 10) * (1 / 10) / 2 * 9, 0, 1 / 10 * (1 / 10) * 9] :
        Matrix (Fin 4) (Fin 4) α) =
      !![0.000225, 0, 0.0045, 0;
         0, 0.000225, 0, 0.0045;
         0.0045, 0, 0.09, 0;
         0, 0.0045, 0, 0.09] := by
  ext i j
  fin_cases i <;> fin_cases j <;> norm_num [Matrix.vecHead, Matrix.vecTail]

section Scenario

variable [FloorRing α] (L : Libm α) (J : (Fin 4 → α) → Matrix (Fin 3) (Fin 4) α)

/-- The controller after the first record of the scenario, the lidar record
`(1, 1, t = 0)`. -/
theorem scenario_first (x0 : Fin 4 → α) (Q0 : Matrix (Fin 4) (Fin 4) α) :
    ((FusionEKF.fresh x0 Q0).ProcessMeasurement L J (lidarRecord1 α)).is_initialized_ = true ∧
    ((FusionEKF.fresh x0 Q0).ProcessMeasurement L J (lidarRecord1 α)).previous_timestamp_ = 0 ∧
    ((FusionEKF.fresh x0 Q0).ProcessMeasurement L J (lidarRecord1 α)).ekf_.2.x_ = ![1, 1, 0, 0] ∧
    ((FusionEKF.fresh x0 Q0).ProcessMeasurement L J (lidarRecord1 α)).ekf_.2.P_ =
      !![1, 0, 0, 0;
         0, 1, 0, 1;
         0, 0, 1000, 0;
         0, 0, 0, 1000] ∧
    TimeTermsOnly ((FusionEKF.fresh x0 Q0).ProcessMeasurement L J (lidarRecord1 α)).ekf_.2.F_ ∧
    ((FusionEKF.fresh x0 Q0).ProcessMeasurement L J (lidarRecord1 α)).H_laser_ =
      !![1, 0, 0, 0;
         0, 1, 0, 0] ∧
    ((FusionEKF.fresh x0 Q0).ProcessMeasurement L J (lidarRecord1 α)).R_laser_ =
      !![0.0225, 0;
         0, 0.0225] := by
  refine ⟨?_, ?_, ?_, ?_, ProcessMeasurement_timeTermsOnly L J _ _ (fresh_timeTermsOnly x0 Q0),
    (ProcessMeasurement_constants L J _ _).2.2, (ProcessMeasurement_constants L J _ _).1⟩
  · exact ProcessMeasurement_sets_flag L J _ _
  · rw [ProcessMeasurement_uninitialized L J _ (fresh_uninitialized x0 Q0)]
    rfl
  · rw [ProcessMeasurement_uninitialized L J _ (fresh_uninitialized x0 Q0)]
    simp [lidarRecord1]
  · rw [ProcessMeasurement_uninitialized L J _ (fresh_uninitialized x0 Q0)]
    rfl

/-- The estimator after both records of the scenario is `Update((1.1, 1))` applied to
`scenarioPredicted`. -/
theorem scenario_run (x0 : Fin 4 → α) (Q0 : Matrix (Fin 4) (Fin 4) α) :
    ((FusionEKF.fresh x0 Q0).run L J [lidarRecord1 α, lidarRecord2 α]).ekf_ =
      ⟨2, (scenarioPredicted α).Update ![1.1, 1]⟩ := by
  show (((FusionEKF.fresh x0 Q0).ProcessMeasurement L J (lidarRecord1 α)).ProcessMeasurement
    L J (lidarRecord2 α)).ekf_ = _
  obtain ⟨h, ht, hx, hP, hF, hH, hR⟩ := scenario_first L J x0 Q0
  generalize (FusionEKF.fresh x0 Q0).ProcessMeasurement L J (lidarRecord1 α) = c at *
  obtain ⟨-, -, gF, gQ⟩ := ProcessMeasurement_initialized L J c h (lidarRecord2 α) (1 / 10)
    (by rw [ht]; norm_num [lidarRecord2])
  rw [setCoeff_timeTerms _ hF] at gF
  rw [(ProcessMeasurement_initialized_ekf L J c h (lidarRecord2 α) _ rfl).2
    (by simp [lidarRecord2])]
  congr 2
  · simp only [scenarioPredicted, KalmanFilter.mk.injEq]
    refine ⟨?_, ?_, ?_, ?_, hH, hR⟩
    · show _ *ᵥ c.ekf_.2.x_ = _
      rw [gF, hx]
      exact scenario_predict_x
    · show _ * c.ekf_.2.P_ * _ᵀ + _ = _
      rw [gF, gQ, hP, scenario_predict_FP]
      exact scenario_predict_P
    · exact gF
    · exact gQ.trans scenario_Q

/-- C14: a freshly constructed controller that processes the lidar record
`(1, 1, t = 0)` and then the lidar record `(1.1, 1, t = 100000)` ends with the estimated
velocity-x `400018/440909` (about `0.907`): it is positive and lies between `0.1` and
`10`. -/
theorem scenario_velocity (x0 : Fin 4 → α) (Q0 : Matrix (Fin 4) (Fin 4) α) :
    ((FusionEKF.fresh x0 Q0).run L J [lidarRecord1 α, lidarRecord2 α]).ekf_.2.x_ 2
      = 400018 / 440909 ∧
    0 < ((FusionEKF.fresh x0 Q0).run L J [lidarRecord1 α, lidarRecord2 α]).ekf_.2.x_ 2 ∧
    0.1 < ((FusionEKF.fresh x0 Q0).run L J [lidarRecord1 α, lidarRecord2 α]).ekf_.2.x_ 2 ∧
    ((FusionEKF.fresh x0 Q0).run L J [lidarRecord1 α, lidarRecord2 α]).ekf_.2.x_ 2 < 10 := by
  rw [scenario_run L J x0 Q0]
  show ((scenarioPredicted α).Update ![1.1, 1]).x_ 2 = _ ∧ _
  rw [scenario_update_vx]
  norm_num

end Scenario

section Symmetry

/-- A right inverse of a symmetric matrix is symmetric. -/
theorem inverse_symm {m : ℕ} (S Si : Matrix (Fin m) (Fin m) α) (hS : Sᵀ = S)
    (h : S * Si = 1) : Siᵀ = Si := by
  have h1 : Si = S⁻¹ := (Matrix.inv_eq_right_inv h).symm
  rw [h1, Matrix.transpose_nonsing_inv, hS]

/-- C17: with `P` symmetric, `Predict` leaves `P` symmetric when `Q` is symmetric, and
`Update` leaves `P` symmetric when `R` is symmetric and `S = H·P·Hᵀ + R` is invertible,
with inverse `Si`; for every `F`, `H` and `z`. -/
theorem symmetry_preserved {n m : ℕ} (k : KalmanFilter α n m) (hP : k.P_ᵀ = k.P_) :
    (k.Q_ᵀ = k.Q_ → k.Predict.P_ᵀ = k.Predict.P_) ∧
    (∀ (z : Fin m → α) (Si : Matrix (Fin m) (Fin m) α), k.R_ᵀ = k.R_ →
      (k.H_ * k.P_ * k.H_ᵀ + k.R_) * Si = 1 → (k.Update z).P_ᵀ = (k.Update z).P_) := by
  constructor
  · intro hQ
    simp only [KalmanFilter.Predict, Matrix.transpose_add, Matrix.transpose_mul,
      Matrix.transpose_transpose, hP, hQ, Matrix.mul_assoc]
  · intro z Si hR hSi
    have hS : (k.H_ * k.P_ * k.H_ᵀ + k.R_)ᵀ = k.H_ * k.P_ * k.H_ᵀ + k.R_ := by
      simp only [Matrix.transpose_add, Matrix.transpose_mul, Matrix.transpose_transpose, hP,
        hR, Matrix.mul_assoc]
    have hSiT := inverse_symm _ Si hS hSi
    simp only [KalmanFilter.Update, inverse_eq_of_mul_eq_one _ _ hSi]
    simp only [Matrix.sub_mul, Matrix.one_mul, Matrix.transpose_sub, Matrix.transpose_mul,
      Matrix.transpose_transpose, hP, hSiT, Matrix.mul_assoc]

/-- C17 at the lidar estimator `lidarExample`, whose `P`, `Q` and `R` are diagonal. -/
theorem symmetry_preserved_witness :
    (lidarExample.P_ᵀ = lidarExample.P_ ∧ lidarExample.Q_ᵀ = lidarExample.Q_ ∧
      lidarExample.R_ᵀ = lidarExample.R_ ∧
      (lidarExample.H_ * lidarExample.P_ * lidarExample.H_ᵀ + lidarExample.R_)
        * lidarExampleSi = 1) ∧
    lidarExample.Predict.P_ᵀ = lidarExample.Predict.P_ ∧
    (lidarExample.Update ![1.1, 1]).P_ᵀ = (lidarExample.Update ![1.1, 1]).P_ := by
  have hP : lidarExample.P_ᵀ = lidarExample.P_ := by
    ext i j
    fin_cases i <;> fin_cases j <;> simp [lidarExample, Matrix.vecHead, Matrix.vecTail]
  have hQ : lidarExample.Q_ᵀ = lidarExample.Q_ := by
    simp [lidarExample]
  have hR : lidarExample.R_ᵀ = lidarExample.R_ := by
    ext i j
    fin_cases i <;> fin_cases j <;> simp [lidarExample, Matrix.vecHead, Matrix.vecTail]
  have hSi : (lidarExample.H_ * lidarExample.P_ * lidarExample.H_ᵀ + lidarExample.R_)
      * lidarExampleSi = 1 := by
    ext i j
    fin_cases i <;> fin_cases j <;>
      norm_num [lidarExample, lidarExampleSi, Matrix.mul_apply, Fin.sum_univ_succ,
        Matrix.vecHead, Matrix.vecTail]
  exact ⟨⟨hP, hQ, hR, hSi⟩, (symmetry_preserved lidarExample hP).1 hQ,
    (symmetry_preserved lidarExample hP).2 ![1.1, 1] lidarExampleSi hR hSi⟩

end Symmetry

section Refinement

variable [FloorRing α] (L : Libm α)

/-- C18: on a non-degenerate state the covariance after `UpdateEKF(z)` is the covariance
after `Update(z')` on the same estimator, for every pair of measurements `z` and `z'`;
neither depends on the measurement. -/
theorem UpdateEKF_covariance_eq_Update (k : KalmanFilter α 4 3) (z z' : Fin 3 → α)
    (h1 : 0.00001 ≤ k.x_ 0 ^ 2 + k.x_ 1 ^ 2) (h2 : 0.00001 ≤ |k.x_ 0|) :
    (k.UpdateEKF L z).P_ = (k.Update z').P_ ∧
    (k.UpdateEKF L z).P_ = (k.UpdateEKF L z').P_ ∧
    (k.Update z).P_ = (k.Update z').P_ ∧
    (k.UpdateEKF L z).P_ =
      (1 - (k.P_ * k.H_ᵀ * inverse (k.H_ * k.P_ * k.H_ᵀ + k.R_)) * k.H_) * k.P_ := by
  have hg : ¬ (|k.x_ 0 * k.x_ 0 + k.x_ 1 * k.x_ 1| < 0.00001 ∨ |k.x_ 0| < 0.00001) := by
    rw [guard_iff]
    exact not_or.mpr ⟨not_lt.mpr h1, not_lt.mpr h2⟩
  have hE : ∀ w : Fin 3 → α, (k.UpdateEKF L w).P_ =
      (1 - (k.P_ * k.H_ᵀ * inverse (k.H_ * k.P_ * k.H_ᵀ + k.R_)) * k.H_) * k.P_ := by
    intro w
    simp only [KalmanFilter.UpdateEKF, KalmanFilter.UpdateEKFWith]
    rw [if_neg hg]
  exact ⟨(hE z).trans rfl, (hE z).trans (hE z').symm, rfl, hE z⟩

end Refinement

/-- C18 at the state `(1, 0, 0, 0)` with the measurements `(2, 1, 0)` and `(5, 0, 3)`,
over the reals. -/
theorem UpdateEKF_covariance_eq_Update_witness :
    ((0.00001 : ℝ) ≤ (radarExample ℝ).x_ 0 ^ 2 + (radarExample ℝ).x_ 1 ^ 2 ∧
      (0.00001 : ℝ) ≤ |(radarExample ℝ).x_ 0|) ∧
    ((radarExample ℝ).UpdateEKF
        ⟨Real.sqrt, fun y x => Complex.arg ⟨x, y⟩, Real.cos, Real.sin, Real.pi, Real.pi_pos⟩
        ![2, 1, 0]).P_ = ((radarExample ℝ).Update ![5, 0, 3]).P_ := by
  have h1 : (0.00001 : ℝ) ≤ (radarExample ℝ).x_ 0 ^ 2 + (radarExample ℝ).x_ 1 ^ 2 := by
    norm_num [radarExample]
  have h2 : (0.00001 : ℝ) ≤ |(radarExample ℝ).x_ 0| := by
    norm_num [radarExample]
  exact ⟨⟨h1, h2⟩, (UpdateEKF_covariance_eq_Update _ (radarExample ℝ) ![2, 1, 0] ![5, 0, 3]
    h1 h2).1⟩

/-- Rounding to the nearest integer does not pass an integer above. -/
theorem roundHalfEven_le {m : ℚ} {N : ℤ} (h : m ≤ N) : roundHalfEven m ≤ N := by
  have hf : ⌊m⌋ ≤ N :=
    Int.floor_le_iff.mpr (by linarith [Int.floor_le m, (show (N : ℚ) < N + 1 by linarith)])
  unfold roundHalfEven
  have hlt : 0 < m - ⌊m⌋ → ⌊m⌋ + 1 ≤ N := by
    intro hpos
    have h1 : (⌊m⌋ : ℚ) < N := by linarith
    have h2 : ⌊m⌋ < N := by exact_mod_cast h1
    omega
  split_ifs with h1 h2 h3
  · exact hf
  · exact hlt (by linarith)
  · exact hf
  · exact hlt (by linarith)

/-- Rounding to the nearest integer moves by at most one half. -/
theorem roundHalfEven_sub_abs (m : ℚ) : |(roundHalfEven m : ℚ) - m| ≤ 1 / 2 := by
  have hf := Int.floor_le m
  have hc := Int.lt_floor_add_one m
  unfold roundHalfEven
  rw [abs_le]
  split_ifs with h1 h2 h3
  · constructor <;> linarith
  · push_cast
    constructor <;> linarith
  · constructor <;> linarith
  · push_cast
    constructor <;> linarith


/-- The spacing of the doubles around `q` is positive. -/
theorem ulp_pos (q : ℚ) : (0 : ℚ) < 2 ^ (Int.log 2 |q| - 52) := by positivity

/-- The spacing of the doubles around `q` is at most `|q| / 2^52`. -/
theorem ulp_le {q : ℚ} (hq : q ≠ 0) : (2 : ℚ) ^ (Int.log 2 |q| - 52) ≤ |q| / 2 ^ 52 := by
  have h1 : ((2 : ℕ) : ℚ) ^ Int.log 2 |q| ≤ |q| :=
    Int.zpow_log_le_self (by norm_num) (abs_pos.mpr hq)
  rw [zpow_sub₀ (by norm_num : (2 : ℚ) ≠ 0)]
  have h2 : (2 : ℚ) ^ (52 : ℤ) = 2 ^ 52 := by norm_num
  rw [h2]
  have h3 : (2 : ℚ) ^ Int.log 2 |q| ≤ |q| := by exact_mod_cast h1
  exact div_le_div_of_nonneg_right h3 (by positivity)

/-- Rounding to binary64 has a relative error of at most `2^-53`. -/
theorem roundDouble_error (q : ℚ) : |roundDouble q - q| ≤ |q| / 2 ^ 53 := by
  by_cases hq : q = 0
  · simp [roundDouble, hq]
  · have hu := ulp_pos q
    have hule := ulp_le hq
    have hm := roundHalfEven_sub_abs (q / 2 ^ (Int.log 2 |q| - 52))
    have key : roundDouble q - q =
        ((roundHalfEven (q / 2 ^ (Int.log 2 |q| - 52)) : ℚ) - q / 2 ^ (Int.log 2 |q| - 52))
          * 2 ^ (Int.log 2 |q| - 52) := by
      rw [roundDouble, if_neg hq]
      field_simp
    rw [key, abs_mul, abs_of_pos hu]
    calc |(roundHalfEven (q / 2 ^ (Int.log 2 |q| - 52)) : ℚ) - q / 2 ^ (Int.log 2 |q| - 52)|
          * 2 ^ (Int.log 2 |q| - 52)
        ≤ 1 / 2 * (|q| / 2 ^ 52) := mul_le_mul hm hule hu.le (by norm_num)
      _ = |q| / 2 ^ 53 := by ring

/-- Rounding to binary64 keeps a value at most `0` at most `0`. -/
theorem roundDouble_nonpos {q : ℚ} (hq : q ≤ 0) : roundDouble q ≤ 0 := by
  by_cases h0 : q = 0
  · simp [roundDouble, h0]
  · rw [roundDouble, if_neg h0]
    have hu := ulp_pos q
    have hm : q / 2 ^ (Int.log 2 |q| - 52) ≤ ((0 : ℤ) : ℚ) := by
      rw [Int.cast_zero]
      exact div_nonpos_of_nonpos_of_nonneg hq hu.le
    have := roundHalfEven_le hm
    have h2 : (roundHalfEven (q / 2 ^ (Int.log 2 |q| - 52)) : ℚ) ≤ 0 := by exact_mod_cast this
    exact mul_nonpos_of_nonpos_of_nonneg h2 hu.le

/-- A significand of `2^53` is the next power of two. -/
theorem two_pow_mul_ulp (e : ℤ) :
    ((2 ^ 53 : ℤ) : ℚ) * 2 ^ (e - 52) = 2 ^ (e + 1) := by
  have h : (2 : ℚ) ^ (e + 1) = 2 ^ (53 : ℤ) * 2 ^ (e - 52) := by
    rw [← zpow_add₀ (by norm_num : (2 : ℚ) ≠ 0)]
    congr 1
    ring
  rw [h]
  norm_num

/-- Rounding to binary64 does not pass the double `M_PI` from below. -/
theorem roundDouble_le_M_PI {q : ℚ} (hq : q ≤ M_PI_double) : roundDouble q ≤ M_PI_double := by
  have hpi : (0 : ℚ) < M_PI_double := by norm_num [M_PI_double]
  rcases le_or_lt q 0 with h0 | h0
  · exact (roundDouble_nonpos h0).trans hpi.le
  · have hq0 : q ≠ 0 := ne_of_gt h0
    have habs : |q| = q := abs_of_pos h0
    rw [roundDouble, if_neg hq0, habs]
    have hlog : Int.log 2 q < 2 := by
      rw [← Int.lt_zpow_iff_log_lt (by norm_num) h0]
      norm_num
      exact lt_of_le_of_lt hq (by norm_num [M_PI_double])
    have hu : (0 : ℚ) < 2 ^ (Int.log 2 q - 52) := by positivity
    have hle1 : Int.log 2 q ≤ 1 := by omega
    rcases eq_or_lt_of_le hle1 with h1 | h1
    · rw [h1]
      have hm : q / 2 ^ ((1 : ℤ) - 52) ≤ ((7074237752028440 : ℤ) : ℚ) := by
        rw [div_le_iff₀ (by positivity)]
        refine hq.trans (le_of_eq ?_)
        norm_num [M_PI_double]
      have h2 : (roundHalfEven (q / 2 ^ ((1 : ℤ) - 52)) : ℚ) ≤ 7074237752028440 := by
        exact_mod_cast roundHalfEven_le hm
      calc (roundHalfEven (q / 2 ^ ((1 : ℤ) - 52)) : ℚ) * 2 ^ ((1 : ℤ) - 52)
          ≤ 7074237752028440 * 2 ^ ((1 : ℤ) - 52) :=
            mul_le_mul_of_nonneg_right h2 (by positivity)
        _ = M_PI_double := by norm_num [M_PI_double]
    · have hle : Int.log 2 q ≤ 0 := by omega
      have hlt : q < ((2 : ℕ) : ℚ) ^ (Int.log 2 q + 1) := Int.lt_zpow_succ_log_self (by norm_num) q
      have hlt' : q < (2 : ℚ) ^ (Int.log 2 q + 1) := by exact_mod_cast hlt
      have hm : q / 2 ^ (Int.log 2 q - 52) ≤ ((2 ^ 53 : ℤ) : ℚ) := by
        rw [div_le_iff₀ hu]
        rw [two_pow_mul_ulp]
        exact hlt'.le
      have h2 : (roundHalfEven (q / 2 ^ (Int.log 2 q - 52)) : ℚ) ≤ ((2 ^ 53 : ℤ) : ℚ) := by
        exact_mod_cast roundHalfEven_le hm
      calc (roundHalfEven (q / 2 ^ (Int.log 2 q - 52)) : ℚ) * 2 ^ (Int.log 2 q - 52)
          ≤ ((2 ^ 53 : ℤ) : ℚ) * 2 ^ (Int.log 2 q - 52) :=
            mul_le_mul_of_nonneg_right h2 hu.le
        _ = 2 ^ (Int.log 2 q + 1) := two_pow_mul_ulp _
        _ ≤ 2 ^ ((1 : ℤ)) := zpow_le_zpow_right₀ (by norm_num) (by omega)
        _ ≤ M_PI_double := by norm_num [M_PI_double]


/-- The double `M_PI` lies between 3 and 4. -/
theorem M_PI_double_bounds : (3 : ℚ) < M_PI_double ∧ M_PI_double < 4 := by
  constructor <;> norm_num [M_PI_double]

/-- The difference `1e17 − 2·M_PI` lies between `2^56` and `2^57`. -/
theorem log_big : Int.log 2 |(10 : ℚ) ^ 17 - 2 * M_PI_double| = 56 := by
  have hpos : (0 : ℚ) < 10 ^ 17 - 2 * M_PI_double := by norm_num [M_PI_double]
  rw [abs_of_pos hpos]
  apply le_antisymm
  · have h : Int.log 2 ((10 : ℚ) ^ 17 - 2 * M_PI_double) < 57 := by
      rw [← Int.lt_zpow_iff_log_lt (by norm_num) hpos]
      norm_num [M_PI_double]
    omega
  · rw [← Int.zpow_le_iff_le_log (by norm_num) hpos]
    norm_num [M_PI_double]

/-- On doubles `1e17 − 2·M_PI` is `1e17`: the spacing of the doubles there is 16. -/
theorem subDouble_big : subDouble (10 ^ 17) (2 * M_PI_double) = 10 ^ 17 := by
  have hne : (10 : ℚ) ^ 17 - 2 * M_PI_double ≠ 0 := by norm_num [M_PI_double]
  have hfloor : ⌊((10 : ℚ) ^ 17 - 2 * M_PI_double) / 2 ^ ((56 : ℤ) - 52)⌋
      = 6249999999999999 := by
    rw [Int.floor_eq_iff]
    constructor <;> norm_num [M_PI_double]
  rw [subDouble, roundDouble, if_neg hne, log_big, roundHalfEven, hfloor]
  rw [if_neg (by norm_num [M_PI_double]), if_pos (by norm_num [M_PI_double])]
  norm_num

/-- On doubles the first loop has not left from `1e17` after any number of passes. -/
theorem whileAboveFuel_big (fuel : ℕ) :
    whileAboveFuel M_PI_double subDouble fuel (10 ^ 17) = none := by
  induction fuel with
  | zero => rfl
  | succ n ih =>
    rw [whileAboveFuel, if_pos (by norm_num [M_PI_double]), subDouble_big]
    exact ih


/-- Up to `2^53` in magnitude, rounding to binary64 moves by at most 1. -/
theorem roundDouble_near {q : ℚ} (hq : |q| ≤ 2 ^ 53) :
    q - 1 ≤ roundDouble q ∧ roundDouble q ≤ q + 1 := by
  have h := roundDouble_error q
  have h1 : |q| / 2 ^ 53 ≤ 1 := by
    rw [div_le_one (by positivity)]
    exact hq
  have h2 := abs_le.mp (h.trans h1)
  constructor <;> linarith [h2.1, h2.2]

/-- Up to `2^53`, a pass of the first loop on doubles lowers the value by at least 5. -/
theorem subDouble_step {y : ℚ} (h1 : M_PI_double < y) (h2 : y ≤ 2 ^ 53) :
    subDouble y (2 * M_PI_double) ≤ y - 5 ∧ -2 ^ 53 ≤ subDouble y (2 * M_PI_double) := by
  obtain ⟨b1, b2⟩ := M_PI_double_bounds
  have hq : |y - 2 * M_PI_double| ≤ 2 ^ 53 := by
    rw [abs_le]
    constructor <;> linarith
  obtain ⟨n1, n2⟩ := roundDouble_near hq
  rw [subDouble]
  constructor <;> linarith

/-- Down to `-2^53`, a pass of the second loop on doubles raises the value by at least 5
and does not pass `M_PI`. -/
theorem addDouble_step {y : ℚ} (h1 : y < -M_PI_double) (h2 : -2 ^ 53 ≤ y) :
    y + 5 ≤ addDouble y (2 * M_PI_double) ∧ addDouble y (2 * M_PI_double) ≤ M_PI_double := by
  obtain ⟨b1, b2⟩ := M_PI_double_bounds
  have hq : |y + 2 * M_PI_double| ≤ 2 ^ 53 := by
    rw [abs_le]
    constructor <;> linarith
  obtain ⟨n1, n2⟩ := roundDouble_near hq
  rw [addDouble]
  refine ⟨by linarith, roundDouble_le_M_PI (by linarith)⟩

/-- On doubles the first loop leaves within `n + 1` passes from a value of at most
`M_PI + 5·n` and `2^53`, at or below `M_PI`. -/
theorem whileAboveFuel_double (n : ℕ) (y : ℚ) (h1 : y ≤ 2 ^ 53)
    (h2 : y ≤ M_PI_double + 5 * n) :
    ∃ r, whileAboveFuel M_PI_double subDouble (n + 1) y = some r ∧ r ≤ M_PI_double ∧
      (-2 ^ 53 ≤ y → -2 ^ 53 ≤ r) := by
  induction n generalizing y with
  | zero =>
    have h : ¬ M_PI_double < y := by
      simp only [Nat.cast_zero, mul_zero, add_zero] at h2
      exact not_lt.mpr h2
    exact ⟨y, by rw [whileAboveFuel, if_neg h], not_lt.mp h, fun hy => hy⟩
  | succ n ih =>
    by_cases h : M_PI_double < y
    · obtain ⟨s1, s2⟩ := subDouble_step h h1
      obtain ⟨r, hr, hr1, hr2⟩ := ih (subDouble y (2 * M_PI_double)) (by linarith)
        (by push_cast at h2; linarith)
      exact ⟨r, by rw [whileAboveFuel, if_pos h]; exact hr, hr1, fun _ => hr2 s2⟩
    · exact ⟨y, by rw [whileAboveFuel, if_neg h], not_lt.mp h, fun hy => hy⟩

/-- On doubles the second loop leaves within `n + 1` passes from a value of at least
`-M_PI - 5·n` and `-2^53`, inside `[-M_PI, M_PI]`. -/
theorem whileBelowFuel_double (n : ℕ) (y : ℚ) (h1 : -2 ^ 53 ≤ y) (h2 : y ≤ M_PI_double)
    (h3 : -M_PI_double - 5 * n ≤ y) :
    ∃ r, whileBelowFuel M_PI_double addDouble (n + 1) y = some r ∧ -M_PI_double ≤ r ∧
      r ≤ M_PI_double := by
  induction n generalizing y with
  | zero =>
    have h : ¬ y < -M_PI_double := by
      simp only [Nat.cast_zero, mul_zero, sub_zero] at h3
      exact not_lt.mpr h3
    exact ⟨y, by rw [whileBelowFuel, if_neg h], not_lt.mp h, h2⟩
  | succ n ih =>
    by_cases h : y < -M_PI_double
    · obtain ⟨s1, s2⟩ := addDouble_step h h1
      obtain ⟨r, hr, hr1, hr2⟩ := ih (addDouble y (2 * M_PI_double)) (by linarith) s2
        (by push_cast at h3; linarith)
      exact ⟨r, by rw [whileBelowFuel, if_pos h]; exact hr, hr1, hr2⟩
    · exact ⟨y, by rw [whileBelowFuel, if_neg h], not_lt.mp h, h2⟩

/-- On doubles both loops leave from every bearing of magnitude at most `2^53`, with a
result inside `[-M_PI, M_PI]`. -/
theorem normalization_double (y : ℚ) (hy : |y| ≤ 2 ^ 53) :
    ∃ (fuel : ℕ) (r : ℚ), whileAboveFuel M_PI_double subDouble fuel y = some r ∧
      ∃ (fuel' : ℕ) (r' : ℚ), whileBelowFuel M_PI_double addDouble fuel' r = some r' ∧
        -M_PI_double ≤ r' ∧ r' ≤ M_PI_double := by
  obtain ⟨b1, b2⟩ := M_PI_double_bounds
  obtain ⟨y1, y2⟩ := abs_le.mp hy
  obtain ⟨r, hr, hr1, hr2⟩ := whileAboveFuel_double (2 ^ 53) y y2 (by push_cast; linarith)
  obtain ⟨r', hr', h1, h2⟩ := whileBelowFuel_double (2 ^ 53) r (hr2 y1) hr1
    (by push_cast; linarith [hr2 y1])
  exact ⟨_, r, hr, _, r', hr', h1, h2⟩


/-- The bearing `1e17` is a double: it is a multiple of 16 between `2^56` and `2^57`. -/
theorem roundDouble_big : roundDouble (10 ^ 17) = 10 ^ 17 := by
  have hne : (10 : ℚ) ^ 17 ≠ 0 := by norm_num
  have hlog : Int.log 2 |(10 : ℚ) ^ 17| = 56 := by
    have hpos : (0 : ℚ) < 10 ^ 17 := by norm_num
    rw [abs_of_pos hpos]
    apply le_antisymm
    · have h : Int.log 2 ((10 : ℚ) ^ 17) < 57 := by
        rw [← Int.lt_zpow_iff_log_lt (by norm_num) hpos]
        norm_num
      omega
    · rw [← Int.zpow_le_iff_le_log (by norm_num) hpos]
      norm_num
  have hfloor : ⌊(10 : ℚ) ^ 17 / 2 ^ ((56 : ℤ) - 52)⌋ = 6250000000000000 := by
    rw [Int.floor_eq_iff]
    constructor <;> norm_num
  rw [roundDouble, if_neg hne, hlog, roundHalfEven, hfloor]
  rw [if_pos (by norm_num)]
  norm_num

section Termination

variable [FloorRing α] (L : Libm α)

/-- The first loop runs its body `n` times, for some `n`: its test holds on the first `n`
values, fails on the next one, and that one is the result. -/
theorem whileAbove_trace (y : α) :
    ∃ n : ℕ, (∀ i : ℕ, i < n → L.M_PI < y - i * (2 * L.M_PI)) ∧
      ¬ (L.M_PI < y - n * (2 * L.M_PI)) ∧ whileAbove L y = y - n * (2 * L.M_PI) := by
  induction y using whileAbove.induct L with
  | case1 y h ih =>
    obtain ⟨n, h1, h2, h3⟩ := ih
    refine ⟨n + 1, ?_, ?_, ?_⟩
    · intro i hi
      cases i with
      | zero => simpa using h
      | succ i =>
        have := h1 i (by omega)
        push_cast
        linarith
    · push_cast
      intro hlt
      apply h2
      linarith
    · rw [whileAbove, if_pos h, h3]
      push_cast
      ring
  | case2 y h =>
    refine ⟨0, ?_, ?_, ?_⟩
    · intro i hi
      omega
    · simpa using h
    · rw [whileAbove, if_neg h]
      simp

/-- The second loop runs its body `m` times, for some `m`: its test holds on the first
`m` values, fails on the next one, and that one is the result. -/
theorem whileBelow_trace (y : α) :
    ∃ m : ℕ, (∀ i : ℕ, i < m → y + i * (2 * L.M_PI) < -L.M_PI) ∧
      ¬ (y + m * (2 * L.M_PI) < -L.M_PI) ∧ whileBelow L y = y + m * (2 * L.M_PI) := by
  induction y using whileBelow.induct L with
  | case1 y h ih =>
    obtain ⟨m, h1, h2, h3⟩ := ih
    refine ⟨m + 1, ?_, ?_, ?_⟩
    · intro i hi
      cases i with
      | zero => simpa using h
      | succ i =>
        have := h1 i (by omega)
        push_cast
        linarith
    · push_cast
      intro hlt
      apply h2
      linarith
    · rw [whileBelow, if_pos h, h3]
      push_cast
      ring
  | case2 y h =>
    refine ⟨0, ?_, ?_, ?_⟩
    · intro i hi
      omega
    · simpa using h
    · rw [whileBelow, if_neg h]
      simp

/-- In exact arithmetic the fuelled first loop leaves, with the value `whileAbove`. -/
theorem whileAboveFuel_exact (y : α) :
    ∃ fuel, whileAboveFuel L.M_PI (fun a b => a - b) fuel y = some (whileAbove L y) := by
  induction y using whileAbove.induct L with
  | case1 y h ih =>
    obtain ⟨fuel, hf⟩ := ih
    refine ⟨fuel + 1, ?_⟩
    rw [whileAboveFuel, if_pos h, whileAbove, if_pos h]
    exact hf
  | case2 y h =>
    refine ⟨1, ?_⟩
    rw [whileAboveFuel, if_neg h, whileAbove, if_neg h]

/-- In exact arithmetic the fuelled second loop leaves, with the value `whileBelow`. -/
theorem whileBelowFuel_exact (y : α) :
    ∃ fuel, whileBelowFuel L.M_PI (fun a b => a + b) fuel y = some (whileBelow L y) := by
  induction y using whileBelow.induct L with
  | case1 y h ih =>
    obtain ⟨fuel, hf⟩ := ih
    refine ⟨fuel + 1, ?_⟩
    rw [whileBelowFuel, if_pos h, whileBelow, if_pos h]
    exact hf
  | case2 y h =>
    refine ⟨1, ?_⟩
    rw [whileBelowFuel, if_neg h, whileBelow, if_neg h]

/-- C19, amended. In exact arithmetic the bearing normalization of `UpdateEKF` terminates
on every input `y`: the first loop leaves after `n` subtractions of `2π` and the second
after `m` additions of `2π`; the result lies in `[−π, π]` and is `y + k·2π` for an integer
`k`; it is the bearing of the innovation of `UpdateEKF`. On binary64 values, from every
bearing `d` of magnitude at most `2^53`, both loops leave and the result lies in
`[−M_PI, M_PI]`. -/
theorem normalization_terminates (y : α) (d : ℚ) (hd : |d| ≤ 2 ^ 53) :
    (∃ n m : ℕ,
      (∀ i : ℕ, i < n → L.M_PI < y - i * (2 * L.M_PI)) ∧
      ¬ (L.M_PI < y - n * (2 * L.M_PI)) ∧
      whileAbove L y = y - n * (2 * L.M_PI) ∧
      (∀ i : ℕ, i < m → y - n * (2 * L.M_PI) + i * (2 * L.M_PI) < -L.M_PI) ∧
      ¬ (y - n * (2 * L.M_PI) + m * (2 * L.M_PI) < -L.M_PI) ∧
      whileBelow L (whileAbove L y) = y - n * (2 * L.M_PI) + m * (2 * L.M_PI)) ∧
    (∃ fuel, whileAboveFuel L.M_PI (fun a b => a - b) fuel y = some (whileAbove L y)) ∧
    (∃ fuel, whileBelowFuel L.M_PI (fun a b => a + b) fuel (whileAbove L y)
      = some (whileBelow L (whileAbove L y))) ∧
    -L.M_PI ≤ whileBelow L (whileAbove L y) ∧
    whileBelow L (whileAbove L y) ≤ L.M_PI ∧
    (∃ k : ℤ, whileBelow L (whileAbove L y) = y + k * (2 * L.M_PI)) ∧
    (∀ (x : Fin 4 → α) (z : Fin 3 → α),
      innovation L x z 1 = whileBelow L (whileAbove L (z 1 - L.atan2 (x 1) (x 0)))) ∧
    (∃ (fuel : ℕ) (r : ℚ), whileAboveFuel M_PI_double subDouble fuel d = some r ∧
      ∃ (fuel' : ℕ) (r' : ℚ), whileBelowFuel M_PI_double addDouble fuel' r = some r' ∧
        -M_PI_double ≤ r' ∧ r' ≤ M_PI_double) := by
  obtain ⟨n, a1, a2, a3⟩ := whileAbove_trace L y
  obtain ⟨m, b1, b2, b3⟩ := whileBelow_trace L (whileAbove L y)
  rw [a3] at b1 b2
  refine ⟨⟨n, m, a1, a2, a3, b1, b2, ?_⟩, whileAboveFuel_exact L y,
    whileBelowFuel_exact L (whileAbove L y), (normalized_mem L y).1, (normalized_mem L y).2,
    ⟨(m : ℤ) - n, ?_⟩, ?_, normalization_double d hd⟩
  · rw [b3, a3]
  · rw [b3, a3]
    push_cast
    ring
  · intro x z
    rw [innovation, innovationWith_eq]
    simp

end Termination

/-- C19 fails as stated: on binary64 values the bearing `1e17` is a double, the pass
`1e17 − 2·M_PI` of the first loop gives `1e17` again, and the loop has not left after
any number of passes. -/
theorem normalization_double_diverges :
    roundDouble (10 ^ 17) = 10 ^ 17 ∧
    M_PI_double < 10 ^ 17 ∧
    subDouble (10 ^ 17) (2 * M_PI_double) = 10 ^ 17 ∧
    ¬ ∃ (fuel : ℕ) (r : ℚ), whileAboveFuel M_PI_double subDouble fuel (10 ^ 17) = some r := by
  refine ⟨roundDouble_big, by norm_num [M_PI_double], subDouble_big, ?_⟩
  rintro ⟨fuel, r, h⟩
  rw [whileAboveFuel_big fuel] at h
  exact Option.noConfusion h

/-- C19, amended, at the bearing `3π` over the reals and the bearing `100` on doubles. -/
theorem normalization_terminates_witness :
    |(100 : ℚ)| ≤ 2 ^ 53 ∧
    ∃ (fuel : ℕ) (r : ℚ), whileAboveFuel M_PI_double subDouble fuel 100 = some r ∧
      ∃ (fuel' : ℕ) (r' : ℚ), whileBelowFuel M_PI_double addDouble fuel' r = some r' ∧
        -M_PI_double ≤ r' ∧ r' ≤ M_PI_double := by
  have hd : |(100 : ℚ)| ≤ 2 ^ 53 := by norm_num
  exact ⟨hd, (normalization_terminates
    ⟨Real.sqrt, fun y x => Complex.arg ⟨x, y⟩, Real.cos, Real.sin, Real.pi, Real.pi_pos⟩
    (3 * Real.pi) 100 hd).2.2.2.2.2.2.2⟩

section NoiseMatrix

variable [FloorRing α] (L : Libm α) (J : (Fin 4 → α) → Matrix (Fin 3) (Fin 4) α)

/-- C20: for every elapsed time `dt`, the process noise `Q` that `ProcessMeasurement`
builds on an initialized controller is symmetric and positive semi-definite (`vᵀ·Q·v ≥ 0`
for every `v`); each per-axis block `9·[[dt⁴/4, dt³/2],[dt³/2, dt²]]` has non-negative
diagonal and determinant zero; and `Q` is the zero matrix exactly when `dt = 0`. -/
theorem process_noise_psd (c : FusionEKF α) (h : c.is_initialized_ = true)
    (r : MeasurementPackage α) (dt : α)
    (hdt : dt = ((r.timestamp_ - c.previous_timestamp_ : ℤ) : α) / 1000000) :
    (c.ProcessMeasurement L J r).ekf_.2.Q_ᵀ = (c.ProcessMeasurement L J r).ekf_.2.Q_ ∧
    (∀ v : Fin 4 → α, 0 ≤ v ⬝ᵥ ((c.ProcessMeasurement L J r).ekf_.2.Q_ *ᵥ v)) ∧
    (!![(c.ProcessMeasurement L J r).ekf_.2.Q_ 0 0, (c.ProcessMeasurement L J r).ekf_.2.Q_ 0 2;
        (c.ProcessMeasurement L J r).ekf_.2.Q_ 2 0, (c.ProcessMeasurement L J r).ekf_.2.Q_ 2 2]
      = !![9 * (dt ^ 4 / 4), 9 * (dt ^ 3 / 2); 9 * (dt ^ 3 / 2), 9 * dt ^ 2]) ∧
    (!![(c.ProcessMeasurement L J r).ekf_.2.Q_ 1 1, (c.ProcessMeasurement L J r).ekf_.2.Q_ 1 3;
        (c.ProcessMeasurement L J r).ekf_.2.Q_ 3 1, (c.ProcessMeasurement L J r).ekf_.2.Q_ 3 3]
      = !![9 * (dt ^ 4 / 4), 9 * (dt ^ 3 / 2); 9 * (dt ^ 3 / 2), 9 * dt ^ 2]) ∧
    0 ≤ 9 * (dt ^ 4 / 4) ∧ 0 ≤ 9 * dt ^ 2 ∧
    (!![9 * (dt ^ 4 / 4), 9 * (dt ^ 3 / 2); 9 * (dt ^ 3 / 2), 9 * dt ^ 2] :
      Matrix (Fin 2) (Fin 2) α).det = 0 ∧
    ((c.ProcessMeasurement L J r).ekf_.2.Q_ = 0 ↔ dt = 0) := by
  rw [(ProcessMeasurement_initialized L J c h r dt hdt).2.2.2]
  refine ⟨?_, ?_, ?_, ?_, by positivity, by positivity, ?_, ?_⟩
  · ext i j
    fin_cases i <;> fin_cases j <;> simp [Matrix.vecHead, Matrix.vecTail]
  · intro v
    have key : v ⬝ᵥ (!![dt * dt * dt * dt / 4 * 9, 0, dt * dt * dt / 2 * 9, 0;
         0, dt * dt * dt * dt / 4 * 9, 0, dt * dt * dt / 2 * 9;
         dt * dt * dt / 2 * 9, 0, dt * dt * 9, 0;
         0, dt * dt * dt / 2 * 9, 0, dt * dt * 9] *ᵥ v) =
        9 * ((dt ^ 2 / 2 * v 0 + dt * v 2) ^ 2 + (dt ^ 2 / 2 * v 1 + dt * v 3) ^ 2) := by
      simp [Matrix.mulVec, Matrix.dotProduct, Fin.sum_univ_four]
      ring
    rw [key]
    positivity
  · ext i j
    fin_cases i <;> fin_cases j <;> simp <;> ring
  · ext i j
    fin_cases i <;> fin_cases j <;> simp <;> ring
  · rw [Matrix.det_fin_two_of]
    ring
  · constructor
    · intro hQ
      have h22 := congrFun (congrFun hQ 2) 2
      simp at h22
      exact h22
    · intro h0
      rw [h0]
      ext i j
      fin_cases i <;> fin_cases j <;> simp [Matrix.vecHead, Matrix.vecTail]

end NoiseMatrix

/-- C20 on the controller that has processed the lidar record `(1, 1, t = 0)`, with the
lidar record `(1.1, 1, t = 100000)`: `dt = 1/10`. -/
theorem process_noise_psd_witness :
    (((FusionEKF.fresh (0 : Fin 4 → ℝ) 0).run
        ⟨Real.sqrt, fun y x => Complex.arg ⟨x, y⟩, Real.cos, Real.sin, Real.pi, Real.pi_pos⟩
        (fun _ => 0) [lidarRecord1 ℝ]).is_initialized_ = true ∧
      (1 / 10 : ℝ) = (((lidarRecord2 ℝ).timestamp_ - ((FusionEKF.fresh (0 : Fin 4 → ℝ) 0).run
        ⟨Real.sqrt, fun y x => Complex.arg ⟨x, y⟩, Real.cos, Real.sin, Real.pi, Real.pi_pos⟩
        (fun _ => 0) [lidarRecord1 ℝ]).previous_timestamp_ : ℤ) : ℝ) / 1000000) ∧
    (((FusionEKF.fresh (0 : Fin 4 → ℝ) 0).run
        ⟨Real.sqrt, fun y x => Complex.arg ⟨x, y⟩, Real.cos, Real.sin, Real.pi, Real.pi_pos⟩
        (fun _ => 0) [lidarRecord1 ℝ]).ProcessMeasurement
        ⟨Real.sqrt, fun y x => Complex.arg ⟨x, y⟩, Real.cos, Real.sin, Real.pi, Real.pi_pos⟩
        (fun _ => 0) (lidarRecord2 ℝ)).ekf_.2.Q_ᵀ =
      (((FusionEKF.fresh (0 : Fin 4 → ℝ) 0).run
        ⟨Real.sqrt, fun y x => Complex.arg ⟨x, y⟩, Real.cos, Real.sin, Real.pi, Real.pi_pos⟩
        (fun _ => 0) [lidarRecord1 ℝ]).ProcessMeasurement
        ⟨Real.sqrt, fun y x => Complex.arg ⟨x, y⟩, Real.cos, Real.sin, Real.pi, Real.pi_pos⟩
        (fun _ => 0) (lidarRecord2 ℝ)).ekf_.2.Q_ := by
  have h := (run_fresh_singleton
    ⟨Real.sqrt, fun y x => Complex.arg ⟨x, y⟩, Real.cos, Real.sin, Real.pi, Real.pi_pos⟩
    (fun _ => 0) (0 : Fin 4 → ℝ) 0 (lidarRecord1 ℝ)).1
  have hdt : (1 / 10 : ℝ) = (((lidarRecord2 ℝ).timestamp_ -
      ((FusionEKF.fresh (0 : Fin 4 → ℝ) 0).run
        ⟨Real.sqrt, fun y x => Complex.arg ⟨x, y⟩, Real.cos, Real.sin, Real.pi, Real.pi_pos⟩
        (fun _ => 0) [lidarRecord1 ℝ]).previous_timestamp_ : ℤ) : ℝ) / 1000000 := by
    rw [(run_fresh_singleton _ _ _ _ _).2]
    norm_num [lidarRecord1, lidarRecord2]
  exact ⟨⟨h, hdt⟩, (process_noise_psd _ _ _ h (lidarRecord2 ℝ) (1 / 10) hdt).1⟩

set_option maxHeartbeats 1000000 in
/-- Two coefficients of the covariance that `Update` computes from `scenarioPredicted`. -/
theorem scenario_update_P :
    ((scenarioPredicted α).Update ![1.1, 1]).P_ 1 3 = 606027 / 2966060 ∧
    ((scenarioPredicted α).Update ![1.1, 1]).P_ 3 1 = 600027 / 2966060 := by
  simp only [KalmanFilter.Update, inverse_eq_of_mul_eq_one _ _ (scenario_mul_Si (α := α))]
  constructor <;>
    simp [scenarioPredicted, scenarioSi, Matrix.mul_apply, Matrix.sub_apply,
      Matrix.one_apply, Fin.sum_univ_four, Matrix.vecHead, Matrix.vecTail] <;>
    norm_num

section Asymmetry

variable [FloorRing α] (L : Libm α) (J : (Fin 4 → α) → Matrix (Fin 3) (Fin 4) α)

/-- C16 fails on the code: after the first lidar record `(1, 1, t = 0)` the covariance of
a freshly constructed controller has `P(1,3) = 1` and `P(3,1) = 0`, and after the second
lidar record `(1.1, 1, t = 100000)` it has `P(1,3) = 606027/2966060` and
`P(3,1) = 600027/2966060`: it is symmetric after neither call. -/
theorem covariance_not_symmetric (x0 : Fin 4 → α) (Q0 : Matrix (Fin 4) (Fin 4) α) :
    ((FusionEKF.fresh x0 Q0).run L J [lidarRecord1 α]).ekf_.2.P_ 1 3 = 1 ∧
    ((FusionEKF.fresh x0 Q0).run L J [lidarRecord1 α]).ekf_.2.P_ 3 1 = 0 ∧
    ((FusionEKF.fresh x0 Q0).run L J [lidarRecord1 α]).ekf_.2.P_ ≠
      ((FusionEKF.fresh x0 Q0).run L J [lidarRecord1 α]).ekf_.2.P_ᵀ ∧
    ((FusionEKF.fresh x0 Q0).run L J [lidarRecord1 α, lidarRecord2 α]).ekf_.2.P_ 1 3
      = 606027 / 2966060 ∧
    ((FusionEKF.fresh x0 Q0).run L J [lidarRecord1 α, lidarRecord2 α]).ekf_.2.P_ 3 1
      = 600027 / 2966060 ∧
    ((FusionEKF.fresh x0 Q0).run L J [lidarRecord1 α, lidarRecord2 α]).ekf_.2.P_ ≠
      ((FusionEKF.fresh x0 Q0).run L J [lidarRecord1 α, lidarRecord2 α]).ekf_.2.P_ᵀ := by
  have hP := (scenario_first L J x0 Q0).2.2.2.1
  have a13 : ((FusionEKF.fresh x0 Q0).run L J [lidarRecord1 α]).ekf_.2.P_ 1 3 = 1 := by
    show ((FusionEKF.fresh x0 Q0).ProcessMeasurement L J (lidarRecord1 α)).ekf_.2.P_ 1 3 = 1
    rw [hP]
    rfl
  have a31 : ((FusionEKF.fresh x0 Q0).run L J [lidarRecord1 α]).ekf_.2.P_ 3 1 = 0 := by
    show ((FusionEKF.fresh x0 Q0).ProcessMeasurement L J (lidarRecord1 α)).ekf_.2.P_ 3 1 = 0
    rw [hP]
    rfl
  have b : ((FusionEKF.fresh x0 Q0).run L J [lidarRecord1 α, lidarRecord2 α]).ekf_.2.P_ 1 3
        = 606027 / 2966060 ∧
      ((FusionEKF.fresh x0 Q0).run L J [lidarRecord1 α, lidarRecord2 α]).ekf_.2.P_ 3 1
        = 600027 / 2966060 := by
    rw [scenario_run L J x0 Q0]
    exact scenario_update_P
  refine ⟨a13, a31, ?_, b.1, b.2, ?_⟩
  · intro hs
    have h13 := congrFun (congrFun hs 1) 3
    rw [Matrix.transpose_apply, a13, a31] at h13
    exact one_ne_zero h13
  · intro hs
    have h13 := congrFun (congrFun hs 1) 3
    rw [Matrix.transpose_apply, b.1, b.2] at h13
    norm_num at h13

end Asymmetry
end EKF
